import Mathlib

/-!
Verification of the schema resolution pipeline of the astro-editor repository.

The Rust sources embedded here are `src-tauri/src/parser.rs` (comment
stripping, helper-call scanning, field-path resolution, heuristic schema
extraction) and `src-tauri/src/schema_merger.rs` (JSON-Schema
interpretation, zod fallback parsing, schema merging).

Modelling conventions:
* Rust `String`/`&str` values are Lean `String`s; `Vec<char>` is `List Char`.
* Regex byte offsets are modelled as byte offsets (`Char.utf8Size` sums).
* A Rust function that can panic is modelled in the `RunExc` type below:
  `.panicked msg` is a Rust panic, `.val a` a normal return.
* Rust `Result<T, String>` is `Except String T`; `Option<T>` is `Option T`.
* Rust `char::is_whitespace` / `char::is_alphanumeric` / `is_lowercase` /
  `is_uppercase` are Unicode predicates; they are modelled with Lean's
  ASCII predicates, which agree with them on all ASCII text (every theorem
  below that depends on them only evaluates them on ASCII characters).
* `serde_json` values are modelled by the `Json` type; numbers are `Rat`
  (exact where `f64` rounds, a difference no theorem below touches).
-/

/-- Outcome of running a piece of Rust code that may panic: either a panic
with a message, or a normally returned value. -/
inductive RunExc (α : Type) where
  | panicked (msg : String) : RunExc α
  | val (a : α) : RunExc α
deriving DecidableEq

/-- A JSON value (model of `serde_json::Value`, with `Rat` for numbers and
object entries in insertion order, as with the `IndexMap`-backed maps used
by the sources). -/
inductive Json where
  | null : Json
  | bool (b : Bool) : Json
  | num (n : Rat) : Json
  | str (s : String) : Json
  | arr (elems : List Json) : Json
  | obj (entries : List (String × Json)) : Json

/-- The apostrophe character, `'` (written via its code point). -/
def squote : Char := Char.ofNat 39

/-- Lookup in an association list by key, first occurrence
(model of `IndexMap::get` / `serde_json::Map::get`). -/
def alookup {α : Type} : List (String × α) → String → Option α
  | [], _ => none
  | (k, v) :: rest, key => if k = key then some v else alookup rest key

/-- Insert into an association list with `IndexMap::insert` semantics:
an existing key keeps its position and gets the new value, a new key is
appended at the end. -/
def insertIdx {α : Type} : List (String × α) → String → α → List (String × α)
  | [], key, v => [(key, v)]
  | (k, w) :: rest, key, v =>
    if k = key then (k, v) :: rest else (k, w) :: insertIdx rest key v

/-- Total UTF-8 byte length of a list of characters. -/
def byteLen : List Char → Nat
  | [] => 0
  | c :: rest => c.utf8Size + byteLen rest

/-- Drop `n` UTF-8 bytes from the front of a character list.  Returns
`none` when `n` is not a character boundary or exceeds the total length
(the situations in which Rust byte slicing panics). -/
def byteDrop : List Char → Nat → Option (List Char)
  | cs, 0 => some cs
  | [], _ + 1 => none
  | c :: cs, n + 1 =>
    if c.utf8Size ≤ n + 1 then byteDrop cs (n + 1 - c.utf8Size) else none

/-- Take `n` UTF-8 bytes from the front of a character list; `none` when
`n` is not a character boundary or exceeds the remaining length. -/
def byteTake : List Char → Nat → Option (List Char)
  | _, 0 => some []
  | [], _ + 1 => none
  | c :: cs, n + 1 =>
    if c.utf8Size ≤ n + 1 then (byteTake cs (n + 1 - c.utf8Size)).map (c :: ·) else none

/-- The byte slice `s[a..b]` of Rust, on the character-list view:
`none` models the panic on a non-boundary or out-of-range index. -/
def byteSlice (cs : List Char) (a b : Nat) : Option (List Char) :=
  (byteDrop cs a).bind (fun t => byteTake t (b - a))

/-- Does `pat` occur as a contiguous run inside `hay`?  This models Rust
`str::contains` for an ASCII pattern: on valid UTF-8, an ASCII byte
sequence occurs as a byte infix exactly when it occurs as a char infix. -/
def containsList (hay pat : List Char) : Bool :=
  match hay with
  | [] => pat.isEmpty
  | _ :: rest => pat.isPrefixOf hay || containsList rest pat

/-- Model of `camel_case_to_title_case` (schema_merger.rs): the tail of the
scan, carrying `prev_was_lower`. -/
def cttcLoop : List Char → Bool → List Char
  | [], _ => []
  | ch :: rest, prevWasLower =>
    if ch.isUpper && prevWasLower then
      ' ' :: ch :: cttcLoop rest false
    else
      ch :: cttcLoop rest ch.isLower

/-- Model of `camel_case_to_title_case` (schema_merger.rs, lines 1068-1087):
uppercase the first character, insert a space before each uppercase letter
that follows a lowercase one. -/
def camelCaseToTitleCase (s : String) : String :=
  match s.data with
  | [] => ""
  | ch :: rest => ⟨ch.toUpper :: cttcLoop rest ch.isLower⟩

/-- The scanner state of `remove_comments` (parser.rs, lines 121-189):
the Rust mutable locals `in_string`, `string_char`, `in_block_comment`,
`escape_next`, plus `inLineComment`, which encodes being inside the Rust
inner `for` loop that consumes a `//` line comment (the inner loop is
re-expressed as a state flag so the whole scan is one pass; it consumes
characters up to and including the newline, emitting only the newline,
exactly like the inner loop). -/
structure RcState where
  inString : Bool
  stringChar : Char
  inBlockComment : Bool
  escapeNext : Bool
  inLineComment : Bool
deriving DecidableEq

/-- One step of the `remove_comments` scan (parser.rs, lines 121-189) for
a character `ch` that is not followed by anything the scanner peeks at
(i.e. all the non-peeking branches).  Returns the characters emitted for
`ch` and the next state; `none` means the peeking branches must decide
(only possible when `ch` is `'*'` in a block comment or `'/'` in normal
state). -/
def rcStep (ch : Char) (st : RcState) : Option (List Char × RcState) :=
  if st.inLineComment then
    if ch = '\n' then some ([ch], { st with inLineComment := false })
    else some ([], st)
  else if st.escapeNext then
    if !st.inBlockComment then some ([ch], { st with escapeNext := false })
    else some ([], { st with escapeNext := false })
  else if st.inString then
    if ch = '\\' then some ([ch], { st with escapeNext := true })
    else if ch = st.stringChar then some ([ch], { st with inString := false })
    else some ([ch], st)
  else if st.inBlockComment then
    if ch = '*' then none
    else some ([], st)
  else
    if ch = '"' ∨ ch = squote then some ([ch], { st with inString := true, stringChar := ch })
    else if ch = '/' then none
    else some ([ch], st)

/-- Model of `remove_comments` (parser.rs, lines 121-189): the main scan.
The two-character patterns expose the `chars.peek()` lookahead of the Rust
loop; `rcStep` handles every branch that does not peek. -/
def rcLoop : List Char → RcState → List Char
  | [], _ => []
  | [ch], st =>
    match rcStep ch st with
    | some (out, _) => out
    | none => if st.inBlockComment then [] else [ch]
  | ch :: ch2 :: rest, st =>
    match rcStep ch st with
    | some (out, st2) => out ++ rcLoop (ch2 :: rest) st2
    | none =>
      if st.inBlockComment then
        if ch2 = '/' then rcLoop rest { st with inBlockComment := false }
        else rcLoop (ch2 :: rest) st
      else
        if ch2 = '/' then rcLoop rest { st with inLineComment := true }
        else if ch2 = '*' then rcLoop rest { st with inBlockComment := true }
        else ch :: rcLoop (ch2 :: rest) st

/-- The initial scanner state of `remove_comments`: all flags false,
`string_char` initialised to `'"'`. -/
def rcInit : RcState :=
  { inString := false, stringChar := '"', inBlockComment := false,
    escapeNext := false, inLineComment := false }

/-- Model of `remove_comments` (parser.rs): strip `//...`-to-newline and
`/*...*/` comment spans, respecting single- and double-quoted strings with
backslash escapes. -/
def removeComments (content : String) : String :=
  ⟨rcLoop content.data rcInit⟩

/-- Kind of a schema-builder helper call (`HelperType` in parser.rs). -/
inductive HelperType where
  | image : HelperType
  | reference : HelperType
deriving DecidableEq

/-- A match of an `image()` or `reference()` helper call (`HelperMatch` in
parser.rs): the kind, the byte position of the match start in the schema
text, and the captured target collection name (references only). -/
structure HelperMatch where
  helperType : HelperType
  position : Nat
  collectionName : Option String
deriving DecidableEq

/-- Drop a literal character sequence from the front of a list; `none` if
it is not a prefix. -/
def dropLit : List Char → List Char → Option (List Char)
  | [], cs => some cs
  | _, [] => none
  | l :: ls, c :: cs => if c = l then dropLit ls cs else none

/-- Try to match the regex `image\s*\(\s*\)` at the head of `cs`
(parser.rs, line 359); on success return the suffix after the match.  The
pattern is deterministic, so regex semantics coincide with this direct
scan.  `\s` is modelled by `Char.isWhitespace` (agrees on the ASCII
whitespace that occurs in config files). -/
def matchImageSuffix (cs : List Char) : Option (List Char) := do
  let r1 ← dropLit "image".data cs
  match r1.dropWhile (fun c => c.isWhitespace) with
  | '(' :: r3 =>
    match r3.dropWhile (fun c => c.isWhitespace) with
    | ')' :: r5 => some r5
    | _ => none
  | _ => none

/-- Try to match `reference\s*\(\s*['"]([^'"]+)['"]\s*\)` at the head of
`cs` (parser.rs, line 369); on success return the suffix after the match
and the captured collection name.  As in the regex, the opening and
closing quote need not be the same character. -/
def matchReferenceSuffix (cs : List Char) : Option (List Char × String) := do
  let r1 ← dropLit "reference".data cs
  match r1.dropWhile (fun c => c.isWhitespace) with
  | '(' :: r3 =>
    match r3.dropWhile (fun c => c.isWhitespace) with
    | q :: r5 =>
      if q = '"' ∨ q = squote then
        let nameChars := r5.takeWhile (fun c => ¬ (c = '"' ∨ c = squote))
        if nameChars.isEmpty then none
        else
          match r5.drop nameChars.length with
          | q2 :: r7 =>
            if q2 = '"' ∨ q2 = squote then
              match r7.dropWhile (fun c => c.isWhitespace) with
              | ')' :: r9 => some (r9, ⟨nameChars⟩)
              | _ => none
            else none
          | [] => none
      else none
    | [] => none
  | _ => none

/-- Left-to-right scan for non-overlapping `image()` matches, returning
their byte offsets (the semantics of `Regex::find_iter`: leftmost match,
then continue after its end).  `fuel` is an upper bound on the number of
steps; the callers pass `length + 1`, which always suffices because every
step consumes at least one character. -/
def scanImageCalls : Nat → List Char → Nat → List Nat
  | 0, _, _ => []
  | _ + 1, [], _ => []
  | fuel + 1, c :: rest, off =>
    match matchImageSuffix (c :: rest) with
    | some suffix => off :: scanImageCalls fuel suffix (off + (byteLen (c :: rest) - byteLen suffix))
    | none => scanImageCalls fuel rest (off + c.utf8Size)

/-- Left-to-right scan for non-overlapping `reference('...')` matches,
returning byte offsets and captured collection names
(the semantics of `Regex::captures_iter`). -/
def scanReferenceCalls : Nat → List Char → Nat → List (Nat × String)
  | 0, _, _ => []
  | _ + 1, [], _ => []
  | fuel + 1, c :: rest, off =>
    match matchReferenceSuffix (c :: rest) with
    | some (suffix, nm) =>
      (off, nm) :: scanReferenceCalls fuel suffix (off + (byteLen (c :: rest) - byteLen suffix))
    | none => scanReferenceCalls fuel rest (off + c.utf8Size)

/-- Model of `find_helper_calls` (parser.rs, lines 355-382): all `image()`
matches (in text order), followed by all `reference(...)` matches (in text
order), with byte positions. -/
def findHelperCalls (s : String) : List HelperMatch :=
  (scanImageCalls (s.data.length + 1) s.data 0).map
    (fun p => { helperType := .image, position := p, collectionName := none })
  ++ (scanReferenceCalls (s.data.length + 1) s.data 0).map
    (fun pc => { helperType := .reference, position := pc.1, collectionName := some pc.2 })

/-- The `while field_end > 0 && chars[field_end - 1].is_whitespace()` scan
of `find_field_name_backwards` (parser.rs, lines 394-397).  All accesses
are in bounds at every call site (the caller has just read `chars[pos]`
with `pos ≥ e`), so the out-of-range case (modelled as stopping) is
unreachable. -/
def skipWsBack (chars : List Char) : Nat → Nat
  | 0 => 0
  | e + 1 =>
    match chars.get? e with
    | some c => if c.isWhitespace then skipWsBack chars e else e + 1
    | none => e + 1

/-- The identifier scan of `find_field_name_backwards` (parser.rs, lines
399-407): step back over alphanumerics, `_` and `$` (Rust
`char::is_alphanumeric` is Unicode; modelled ASCII, identical on the ASCII
identifiers every theorem below uses). -/
def skipIdentBack (chars : List Char) : Nat → Nat
  | 0 => 0
  | e + 1 =>
    match chars.get? e with
    | some c => if c.isAlphanum ∨ c = '_' ∨ c = '$' then skipIdentBack chars e else e + 1
    | none => e + 1

/-- The body of `find_field_name_backwards` once a `:` has been found at
`pos` (parser.rs, lines 392-412): trim whitespace, scan back over an
identifier, return it when nonempty. -/
def fieldNameAt (chars : List Char) (pos : Nat) : Option String :=
  let fieldEnd := skipWsBack chars pos
  let fieldStart := skipIdentBack chars fieldEnd
  if fieldStart < fieldEnd then some ⟨(chars.drop fieldStart).take (fieldEnd - fieldStart)⟩
  else none

/-- The `while pos > 0` loop of `find_field_name_backwards` (parser.rs,
lines 386-418).  The Rust code indexes the char vector `chars` with `pos`,
a byte offset produced by the regex scanner; when that offset exceeds the
last char index the Rust indexing panics, modelled by `.panicked`. -/
def fnbLoop (chars : List Char) : Nat → RunExc (Option String)
  | 0 => .val none
  | pos + 1 =>
    match chars.get? (pos + 1) with
    | none => .panicked "index out of bounds"
    | some c =>
      if c = ':' then
        match fieldNameAt chars (pos + 1) with
        | some nm => .val (some nm)
        | none => fnbLoop chars pos
      else fnbLoop chars pos

/-- Model of `find_field_name_backwards` (parser.rs, lines 386-418). -/
def findFieldNameBackwards (schemaText : String) (startPos : Nat) : RunExc (Option String) :=
  fnbLoop schemaText.data startPos

/-- The `while pos > 0` loop of `is_inside_array` (parser.rs, lines
422-437).  At the first `:` found, the Rust code slices the *string* with
the char-vector index `pos` (`&schema_text[pos..helper_position]`); a
non-boundary byte index panics, modelled through `byteSlice`. -/
def iiaLoop (chars : List Char) (helperPos : Nat) : Nat → RunExc Bool
  | 0 => .val false
  | pos + 1 =>
    match chars.get? (pos + 1) with
    | none => .panicked "index out of bounds"
    | some c =>
      if c = ':' then
        match byteSlice chars (pos + 1) helperPos with
        | some between => .val (containsList between "z.array(".data)
        | none => .panicked "byte index is not a char boundary"
      else iiaLoop chars helperPos pos

/-- Model of `is_inside_array` (parser.rs, lines 422-437): does `z.array(`
occur between the nearest preceding `:` and the helper position? -/
def isInsideArray (schemaText : String) (helperPosition : Nat) : RunExc Bool :=
  iiaLoop schemaText.data helperPosition helperPosition

/-- The `while current_pos > 0` loop of `build_parent_path` (parser.rs,
lines 449-487); `cp + 1` is the value of `current_pos` before the
decrement at the top of the Rust loop body, so the body reads
`chars[cp]`. -/
def bppLoop (chars : List Char) : Nat → Int → List String → RunExc (List String)
  | 0, _, acc => .val acc
  | cp + 1, braceLevel, acc =>
    match chars.get? cp with
    | none => .panicked "index out of bounds"
    | some ch =>
      if ch = '}' then bppLoop chars cp (braceLevel + 1) acc
      else if ch = '{' then
        if braceLevel - 1 < 0 then
          match fnbLoop chars cp with
          | .panicked m => .panicked m
          | .val (some parentField) =>
            if acc.getLast? = some parentField then bppLoop chars cp 0 acc
            else bppLoop chars cp 0 (acc ++ [parentField])
          | .val none => .val acc
        else bppLoop chars cp (braceLevel - 1) acc
      else bppLoop chars cp braceLevel acc

/-- Model of `build_parent_path` (parser.rs, lines 449-487): parent field
names, innermost first. -/
def buildParentPath (schemaText : String) (startPosition : Nat) : RunExc (List String) :=
  bppLoop schemaText.data startPosition 0 []

/-- Model of `resolve_field_path` (parser.rs, lines 495-515): the dotted
field path for the helper at `helperPosition`, or the Rust `Err` when no
field name is found. -/
def resolveFieldPath (schemaText : String) (helperPosition : Nat) :
    RunExc (Except String String) :=
  match findFieldNameBackwards schemaText helperPosition with
  | .panicked m => .panicked m
  | .val none =>
    .val (.error ("Could not find field name for helper at position " ++ toString helperPosition))
  | .val (some fieldName) =>
    match buildParentPath schemaText helperPosition with
    | .panicked m => .panicked m
    | .val parentFields =>
      .val (.ok (String.intercalate "." ((fieldName :: parentFields).reverse)))

/-- The `serde_json::json!` object built for one helper by
`extract_zod_special_fields` (parser.rs, lines 539-587), with entries in
the literal's order. -/
def buildFieldJson (h : HelperMatch) (fieldPath : String) (inArray : Bool) : Json :=
  if inArray then
    match h.helperType with
    | .image =>
      .obj [("name", .str fieldPath), ("type", .str "Array"), ("arrayType", .str "Image"),
            ("optional", .bool true), ("default", .null), ("constraints", .obj [])]
    | .reference =>
      .obj [("name", .str fieldPath), ("type", .str "Array"), ("arrayType", .str "Reference"),
            ("arrayReferenceCollection", .str (h.collectionName.getD "")),
            ("optional", .bool true), ("default", .null), ("constraints", .obj [])]
  else
    match h.helperType with
    | .image =>
      .obj [("name", .str fieldPath), ("type", .str "Image"),
            ("optional", .bool true), ("default", .null), ("constraints", .obj [])]
    | .reference =>
      .obj [("name", .str fieldPath), ("type", .str "Reference"),
            ("referencedCollection", .str (h.collectionName.getD "")),
            ("optional", .bool true), ("default", .null), ("constraints", .obj [])]

/-- The per-helper loop of `extract_zod_special_fields` (parser.rs, lines
532-595): resolve the path, detect array wrapping, build the field JSON;
helpers whose path cannot be resolved are skipped. -/
def ezsfLoop (s : String) : List HelperMatch → RunExc (List Json)
  | [] => .val []
  | h :: rest =>
    match resolveFieldPath s h.position with
    | .panicked m => .panicked m
    | .val (.ok fieldPath) =>
      match isInsideArray s h.position with
      | .panicked m => .panicked m
      | .val inArray =>
        match ezsfLoop s rest with
        | .panicked m => .panicked m
        | .val tailJson => .val (buildFieldJson h fieldPath inArray :: tailJson)
    | .val (.error _) => ezsfLoop s rest

/-- Model of `extract_zod_special_fields` (parser.rs, lines 521-608),
up to the final `to_string()` serialisation: the heuristic zod schema as a
JSON value (`none` when no helper was found or none could be resolved). -/
def extractZodSpecialFields (s : String) : RunExc (Option Json) :=
  let helpers := findHelperCalls s
  if helpers.isEmpty then .val none
  else
    match ezsfLoop s helpers with
    | .panicked m => .panicked m
    | .val fieldsJson =>
      .val (if fieldsJson.isEmpty then none
            else some (.obj [("type", .str "zod"), ("fields", .arr fieldsJson)]))

/-- Model of `StringOrArray` (schema_merger.rs, lines 165-171): a JSON
Schema `type` field, either one type name or a list. -/
inductive StringOrArray where
  | str (s : String) : StringOrArray
  | arr (l : List String) : StringOrArray
deriving DecidableEq

mutual
/-- Model of `JsonSchemaProperty` (schema_merger.rs, lines 114-162), as a
single-constructor inductive (a `structure` cannot be recursive).  Field
order and names follow the Rust struct; the ignored `not` field is
omitted.  `f64` fields are `Rat`, `usize` fields are `Nat`. -/
inductive Sprop where
  | mk
    (type_ : Option StringOrArray)
    (format : Option String)
    (anyOf : Option (List Sprop))
    (enum_ : Option (List String))
    (const_ : Option String)
    (items : Option SpropItems)
    (properties : Option (List (String × Sprop)))
    (additionalProperties : Option SpropAddl)
    (required : Option (List String))
    (description : Option String)
    (markdownDescription : Option String)
    (default : Option Json)
    (minimum : Option Rat)
    (maximum : Option Rat)
    (exclusiveMinimum : Option Rat)
    (exclusiveMaximum : Option Rat)
    (minLength : Option Nat)
    (maxLength : Option Nat)
    (minItems : Option Nat)
    (maxItems : Option Nat)
    (pattern : Option String) : Sprop

/-- Model of `ItemsType` (schema_merger.rs, lines 174-181): array items,
either a single schema or a tuple. -/
inductive SpropItems where
  | single (p : Sprop) : SpropItems
  | tuple (ps : List Sprop) : SpropItems

/-- Model of `PropertyAdditionalProperties` (schema_merger.rs, lines
104-111): `additionalProperties` at property level. -/
inductive SpropAddl where
  | bool (b : Bool) : SpropAddl
  | schema (p : Sprop) : SpropAddl
end

mutual
/-- Model of `JsonSchemaDefinition` (schema_merger.rs, lines 80-92). -/
inductive SDef where
  | mk
    (type_ : String)
    (properties : Option (List (String × Sprop)))
    (required : Option (List String))
    (additionalProperties : Option SDefAddl) : SDef

/-- Model of `CollectionAdditionalProperties` (schema_merger.rs, lines
95-101): `additionalProperties` at collection level. -/
inductive SDefAddl where
  | bool (b : Bool) : SDefAddl
  | schema (d : SDef) : SDefAddl
end

def Sprop.type_ : Sprop → Option StringOrArray
  | .mk t _ _ _ _ _ _ _ _ _ _ _ _ _ _ _ _ _ _ _ _ => t

def Sprop.format : Sprop → Option String
  | .mk _ f _ _ _ _ _ _ _ _ _ _ _ _ _ _ _ _ _ _ _ => f

def Sprop.anyOf : Sprop → Option (List Sprop)
  | .mk _ _ ao _ _ _ _ _ _ _ _ _ _ _ _ _ _ _ _ _ _ => ao

def Sprop.enum_ : Sprop → Option (List String)
  | .mk _ _ _ e _ _ _ _ _ _ _ _ _ _ _ _ _ _ _ _ _ => e

def Sprop.const_ : Sprop → Option String
  | .mk _ _ _ _ c _ _ _ _ _ _ _ _ _ _ _ _ _ _ _ _ => c

def Sprop.items : Sprop → Option SpropItems
  | .mk _ _ _ _ _ it _ _ _ _ _ _ _ _ _ _ _ _ _ _ _ => it

def Sprop.properties : Sprop → Option (List (String × Sprop))
  | .mk _ _ _ _ _ _ pr _ _ _ _ _ _ _ _ _ _ _ _ _ _ => pr

def Sprop.additionalProperties : Sprop → Option SpropAddl
  | .mk _ _ _ _ _ _ _ ap _ _ _ _ _ _ _ _ _ _ _ _ _ => ap

def Sprop.required : Sprop → Option (List String)
  | .mk _ _ _ _ _ _ _ _ rq _ _ _ _ _ _ _ _ _ _ _ _ => rq

def Sprop.description : Sprop → Option String
  | .mk _ _ _ _ _ _ _ _ _ d _ _ _ _ _ _ _ _ _ _ _ => d

def Sprop.markdownDescription : Sprop → Option String
  | .mk _ _ _ _ _ _ _ _ _ _ md _ _ _ _ _ _ _ _ _ _ => md

def Sprop.default : Sprop → Option Json
  | .mk _ _ _ _ _ _ _ _ _ _ _ df _ _ _ _ _ _ _ _ _ => df

def Sprop.minimum : Sprop → Option Rat
  | .mk _ _ _ _ _ _ _ _ _ _ _ _ mn _ _ _ _ _ _ _ _ => mn

def Sprop.maximum : Sprop → Option Rat
  | .mk _ _ _ _ _ _ _ _ _ _ _ _ _ mx _ _ _ _ _ _ _ => mx

def Sprop.exclusiveMinimum : Sprop → Option Rat
  | .mk _ _ _ _ _ _ _ _ _ _ _ _ _ _ emn _ _ _ _ _ _ => emn

def Sprop.exclusiveMaximum : Sprop → Option Rat
  | .mk _ _ _ _ _ _ _ _ _ _ _ _ _ _ _ emx _ _ _ _ _ => emx

def Sprop.minLength : Sprop → Option Nat
  | .mk _ _ _ _ _ _ _ _ _ _ _ _ _ _ _ _ mnl _ _ _ _ => mnl

def Sprop.maxLength : Sprop → Option Nat
  | .mk _ _ _ _ _ _ _ _ _ _ _ _ _ _ _ _ _ mxl _ _ _ => mxl

def Sprop.minItems : Sprop → Option Nat
  | .mk _ _ _ _ _ _ _ _ _ _ _ _ _ _ _ _ _ _ mni _ _ => mni

def Sprop.maxItems : Sprop → Option Nat
  | .mk _ _ _ _ _ _ _ _ _ _ _ _ _ _ _ _ _ _ _ mxi _ => mxi

def Sprop.pattern : Sprop → Option String
  | .mk _ _ _ _ _ _ _ _ _ _ _ _ _ _ _ _ _ _ _ _ pat => pat

def SDef.type_ : SDef → String
  | .mk t _ _ _ => t

def SDef.properties : SDef → Option (List (String × Sprop))
  | .mk _ pr _ _ => pr

def SDef.required : SDef → Option (List String)
  | .mk _ _ rq _ => rq

def SDef.additionalProperties : SDef → Option SDefAddl
  | .mk _ _ _ ap => ap

/-- Model of `FieldConstraints` (schema_merger.rs, lines 56-69). -/
structure FieldConstraints where
  min : Option Rat
  max : Option Rat
  min_length : Option Nat
  max_length : Option Nat
  pattern : Option String
  format : Option String

/-- Model of `SchemaField` (schema_merger.rs, lines 17-51). -/
structure SchemaField where
  name : String
  label : String
  field_type : String
  sub_type : Option String
  required : Bool
  constraints : Option FieldConstraints
  description : Option String
  default : Option Json
  enum_values : Option (List String)
  reference_collection : Option String
  array_reference_collection : Option String
  is_nested : Option Bool
  parent_path : Option String

/-- Model of `SchemaDefinition` (schema_merger.rs, lines 9-12). -/
structure SchemaDefinition where
  collection_name : String
  fields : List SchemaField

/-- Model of `FieldTypeInfo` (schema_merger.rs, lines 390-396). -/
structure FieldTypeInfo where
  fieldType : String
  subType : Option String
  enumValues : Option (List String)
  referenceCollection : Option String
  arrayReferenceCollection : Option String
deriving DecidableEq

/-- A `FieldTypeInfo` with only the type tag set (the shape every
non-array, non-enum arm of schema_merger.rs constructs). -/
def ftiPlain (t : String) : FieldTypeInfo :=
  { fieldType := t, subType := none, enumValues := none,
    referenceCollection := none, arrayReferenceCollection := none }

/-- Model of `is_date_field` (schema_merger.rs, lines 770-777). -/
def isDateField (anyOf : List Sprop) : Bool :=
  anyOf.any fun s =>
    match s.format with
    | some f => f = "date-time" ∨ f = "date" ∨ f = "unix-time"
    | none => false

/-- Model of `is_reference_field` (schema_merger.rs, lines 780-790). -/
def isReferenceField (anyOf : List Sprop) : Bool :=
  anyOf.any fun s =>
    if s.type_ = some (.str "object") then
      match s.properties with
      | some props =>
        (alookup props "collection").isSome ∧
          ((alookup props "id").isSome ∨ (alookup props "slug").isSome)
      | none => false
    else false

/-- The `for schema in any_of` loop of `extract_nullable_primitive_type`
(schema_merger.rs, lines 448-486), carrying `primitive_type` and
`has_null`; `none` models the early `return None`. -/
def enptLoop : List Sprop → Option String → Bool → Option String
  | [], primitiveType, hasNull => if hasNull then primitiveType else none
  | s :: rest, primitiveType, hasNull =>
    match s.type_ with
    | some (.str t) =>
      if t = "null" then enptLoop rest primitiveType true
      else if t = "number" ∨ t = "integer" ∨ t = "boolean" then enptLoop rest (some t) hasNull
      else if t = "string" then
        if s.enum_.isSome then none else enptLoop rest (some t) hasNull
      else none
    | _ => none

/-- Model of `extract_nullable_primitive_type` (schema_merger.rs, lines
448-486). -/
def extractNullablePrimitiveType (anyOf : List Sprop) : Option String :=
  if anyOf.length = 2 then enptLoop anyOf none false else none

/-- The `for schema in any_of` loop of `extract_nullable_enum_type`
(schema_merger.rs, lines 522-556), carrying `enum_values` and `has_null`
(this loop has no early return). -/
def enetLoop : List Sprop → Option (List String) → Bool → Option (List String) × Bool
  | [], enumValues, hasNull => (enumValues, hasNull)
  | s :: rest, enumValues, hasNull =>
    match s.type_ with
    | some (.str t) =>
      if t = "null" then enetLoop rest enumValues true
      else if t = "string" then
        match s.enum_ with
        | some values => enetLoop rest (some values) hasNull
        | none => enetLoop rest enumValues hasNull
      else enetLoop rest enumValues hasNull
    | _ => enetLoop rest enumValues hasNull

/-- Model of `extract_nullable_enum_type` (schema_merger.rs, lines
522-556). -/
def extractNullableEnumType (anyOf : List Sprop) : Option FieldTypeInfo :=
  if anyOf.length = 2 then
    match enetLoop anyOf none false with
    | (some enumValues, true) =>
      some { fieldType := "enum", subType := none, enumValues := some enumValues,
             referenceCollection := none, arrayReferenceCollection := none }
    | _ => none
  else none

/-- Classification of a branch by the `match` arms of the
`extract_nullable_array_type` loop (schema_merger.rs, lines 499-509):
a `null`-typed branch, an `array`-typed branch, or anything else (which
makes the loop `return None`). -/
inductive NullableArrayClass where
  | nullBranch : NullableArrayClass
  | arrayBranch : NullableArrayClass
  | otherBranch : NullableArrayClass
deriving DecidableEq

/-- The branch classification of the `extract_nullable_array_type` loop. -/
def naClass (s : Sprop) : NullableArrayClass :=
  match s.type_ with
  | some (.str t) =>
    if t = "null" then .nullBranch
    else if t = "array" then .arrayBranch
    else .otherBranch
  | _ => .otherBranch

/-- Model of `handle_object_type` (schema_merger.rs, lines 604-628); the
function only reads `additional_properties`, which is what it receives
here. -/
def handleObjectType (additionalProperties : Option SpropAddl) : Except String FieldTypeInfo :=
  match additionalProperties with
  | some (.bool true) => .ok (ftiPlain "string")
  | some (.schema _) => .ok (ftiPlain "string")
  | _ => .ok (ftiPlain "unknown")

/-- Model of `handle_primitive_type` (schema_merger.rs, lines 631-681). -/
def handlePrimitiveType (type_ : StringOrArray) : Except String FieldTypeInfo :=
  match type_ with
  | .str s =>
    if s = "string" then .ok (ftiPlain "string")
    else if s = "integer" then .ok (ftiPlain "integer")
    else if s = "number" then .ok (ftiPlain "number")
    else if s = "boolean" then .ok (ftiPlain "boolean")
    else .ok (ftiPlain "unknown")
  | .arr _ => .ok (ftiPlain "string")

/-- The tail of `handle_anyof_type` after the nullable-array attempt
failed (schema_merger.rs, lines 432-443): nullable enum, then the
catch-all `string`. -/
def anyofFallback (anyOf : List Sprop) : Except String FieldTypeInfo :=
  match extractNullableEnumType anyOf with
  | some enumType => .ok enumType
  | none => .ok (ftiPlain "string")

mutual
/-- Model of `determine_field_type` (schema_merger.rs, lines 684-767):
anyOf, then enum, then const, then array, then object, then string
formats, then plain primitives. -/
def determineFieldType (p : Sprop) : Except String FieldTypeInfo :=
  match p with
  | .mk t f ao e c it _pr ap _rq _d _md _df _mn _mx _emn _emx _mnl _mxl _mni _mxi _pat =>
    match ao with
    | some anyOf => handleAnyofType anyOf
    | none =>
      match e with
      | some enumValues =>
        .ok { fieldType := "enum", subType := none, enumValues := some enumValues,
              referenceCollection := none, arrayReferenceCollection := none }
      | none =>
        if c.isSome then .ok (ftiPlain "string")
        else if t = some (.str "array") then handleArrayType it
        else if t = some (.str "object") then handleObjectType ap
        else
          match t with
          | some ty =>
            if ty = .str "string" ∧ f = some "email" then .ok (ftiPlain "email")
            else if ty = .str "string" ∧ f = some "uri" then .ok (ftiPlain "url")
            else handlePrimitiveType ty
          | none => .ok (ftiPlain "unknown")

/-- Model of `handle_anyof_type` (schema_merger.rs, lines 399-444), with
`extract_nullable_array_type` (lines 490-518) inlined: its loop over
`any_of`, which is only reached when `any_of.len() == 2`, is specialised
to the two-element list (one branch must be `null`-typed and the other
`array`-typed, in either order; any other combination makes the loop
return `None`, i.e. fall through to the nullable-enum attempt). -/
def handleAnyofType (anyOf : List Sprop) : Except String FieldTypeInfo :=
  if isDateField anyOf then .ok (ftiPlain "date")
  else if isReferenceField anyOf then .ok (ftiPlain "reference")
  else
    match extractNullablePrimitiveType anyOf with
    | some primitiveType => .ok (ftiPlain primitiveType)
    | none =>
      match anyOf with
      | [a, b] =>
        match naClass a, naClass b with
        | .nullBranch, .arrayBranch =>
          match b with
          | .mk _ _ _ _ _ itb _ _ _ _ _ _ _ _ _ _ _ _ _ _ _ =>
            match handleArrayType itb with
            | .ok v => .ok v
            | .error _ => anyofFallback [a, b]
        | .arrayBranch, .nullBranch =>
          match a with
          | .mk _ _ _ _ _ ita _ _ _ _ _ _ _ _ _ _ _ _ _ _ _ =>
            match handleArrayType ita with
            | .ok v => .ok v
            | .error _ => anyofFallback [a, b]
        | _, _ => anyofFallback [a, b]
      | other => anyofFallback other

/-- Model of `handle_array_type` (schema_merger.rs, lines 559-601); the
function only reads `field_schema.items`, which is what it receives here.
The redundant `if` on `"reference"` mirrors the source, whose two branches
build the same value. -/
def handleArrayType (items : Option SpropItems) : Except String FieldTypeInfo :=
  match items with
  | some (.single itemSchema) =>
    match determineFieldType itemSchema with
    | .error e => .error e
    | .ok itemTypeInfo =>
      if itemTypeInfo.fieldType = "reference" then
        .ok { fieldType := "array", subType := some itemTypeInfo.fieldType, enumValues := none,
              referenceCollection := none, arrayReferenceCollection := none }
      else
        .ok { fieldType := "array", subType := some itemTypeInfo.fieldType, enumValues := none,
              referenceCollection := none, arrayReferenceCollection := none }
  | some (.tuple _) => .ok (ftiPlain "string")
  | none =>
    .ok { fieldType := "array", subType := some "string", enumValues := none,
          referenceCollection := none, arrayReferenceCollection := none }
end

/-- Model of `extract_constraints` (schema_merger.rs, lines 793-860).
Exclusive bounds overwrite the inclusive ones (±1); for arrays,
`minItems`/`maxItems` overwrite the length constraints. -/
def extractConstraints (p : Sprop) (fieldType : String) : Option FieldConstraints :=
  let cmin := match p.exclusiveMinimum with
    | some e => some (e + 1)
    | none => p.minimum
  let cmax := match p.exclusiveMaximum with
    | some e => some (e - 1)
    | none => p.maximum
  let cfmt := match p.format with
    | some f => if f = "email" ∨ f = "uri" ∨ f = "date-time" ∨ f = "date" then some f else none
    | none => none
  let cminLen := if fieldType = "array" then
      match p.minItems with
      | some v => some v
      | none => p.minLength
    else p.minLength
  let cmaxLen := if fieldType = "array" then
      match p.maxItems with
      | some v => some v
      | none => p.maxLength
    else p.maxLength
  if cmin.isSome ∨ cmax.isSome ∨ cminLen.isSome ∨ cmaxLen.isSome ∨
      p.pattern.isSome ∨ cfmt.isSome then
    some { min := cmin, max := cmax, min_length := cminLen, max_length := cmaxLen,
           pattern := p.pattern, format := cfmt }
  else none

mutual
/-- Model of `parse_field` (schema_merger.rs, lines 313-387): one field,
flattened recursively when it is an object with properties classified
`unknown`. -/
def parseField (fieldName : String) (fieldSchema : Sprop) (isRequired : Bool)
    (parentPath : String) : Except String (List SchemaField) :=
  match fieldSchema with
  | .mk t _f _ao _e _c _it pr _ap rq d md df _mn _mx _emn _emx _mnl _mxl _mni _mxi _pat =>
    let fullPath := if parentPath.isEmpty then fieldName else parentPath ++ "." ++ fieldName
    match determineFieldType fieldSchema with
    | .error e2 => .error e2
    | .ok fieldTypeInfo =>
      match pr with
      | some ps =>
        if fieldTypeInfo.fieldType = "unknown" ∧ t = some (.str "object") then
          parseFieldList ps (rq.getD []) fullPath
        else
          .ok [{ name := fullPath, label := camelCaseToTitleCase fieldName,
                 field_type := fieldTypeInfo.fieldType, sub_type := fieldTypeInfo.subType,
                 required := isRequired && df.isNone,
                 constraints := extractConstraints fieldSchema fieldTypeInfo.fieldType,
                 description := (match d with | some v => some v | none => md),
                 default := df, enum_values := fieldTypeInfo.enumValues,
                 reference_collection := fieldTypeInfo.referenceCollection,
                 array_reference_collection := fieldTypeInfo.arrayReferenceCollection,
                 is_nested := if !parentPath.isEmpty then some true else none,
                 parent_path := if !parentPath.isEmpty then some parentPath else none }]
      | none =>
        .ok [{ name := fullPath, label := camelCaseToTitleCase fieldName,
               field_type := fieldTypeInfo.fieldType, sub_type := fieldTypeInfo.subType,
               required := isRequired && df.isNone,
               constraints := extractConstraints fieldSchema fieldTypeInfo.fieldType,
               description := (match d with | some v => some v | none => md),
               default := df, enum_values := fieldTypeInfo.enumValues,
               reference_collection := fieldTypeInfo.referenceCollection,
               array_reference_collection := fieldTypeInfo.arrayReferenceCollection,
               is_nested := if !parentPath.isEmpty then some true else none,
               parent_path := if !parentPath.isEmpty then some parentPath else none }]

/-- The flatten loop of `parse_field` (schema_merger.rs, lines 339-352):
parse each nested property with the object's own `required` list and the
extended parent path, concatenating results. -/
def parseFieldList (ps : List (String × Sprop)) (nestedRequired : List String)
    (fullPath : String) : Except String (List SchemaField) :=
  match ps with
  | [] => .ok []
  | (nestedName, nestedSchema) :: rest =>
    match parseField nestedName nestedSchema (nestedRequired.contains nestedName) fullPath with
    | .error e => .error e
    | .ok parsed =>
      match parseFieldList rest nestedRequired fullPath with
      | .error e => .error e
      | .ok more => .ok (parsed ++ more)
end

/-- The property loop of `parse_entry_schema` (schema_merger.rs, lines
282-298): parse every property, skipping the `$schema` metadata key. -/
def pesLoop : List (String × Sprop) → List String → Except String (List SchemaField)
  | [], _ => .ok []
  | (fieldName, fieldSchema) :: rest, requiredSet =>
    if fieldName = "$schema" then pesLoop rest requiredSet
    else
      match parseField fieldName fieldSchema (requiredSet.contains fieldName) "" with
      | .error e => .error e
      | .ok parsedFields =>
        match pesLoop rest requiredSet with
        | .error e => .error e
        | .ok more => .ok (parsedFields ++ more)

/-- Model of `parse_entry_schema` (schema_merger.rs, lines 260-310). -/
def parseEntrySchema (collectionName : String) (entrySchema : SDef) :
    Except String SchemaDefinition :=
  match entrySchema.properties with
  | none => .error "No properties found"
  | some properties =>
    match pesLoop properties (entrySchema.required.getD []) with
    | .error e => .error e
    | .ok fields => .ok { collection_name := collectionName, fields := fields }

/-- Model of `AstroJsonSchema` (schema_merger.rs, lines 72-77). -/
structure AstroJsonSchema where
  ref_ : String
  definitions : List (String × SDef)

/-- The body of `parse_json_schema` (schema_merger.rs, lines 231-257)
after `serde_json` deserialisation: resolve the root `$ref`, unwrap a
file-based collection's `additionalProperties` schema, and parse the
entry schema. -/
def parseJsonSchemaDoc (collectionName : String) (schema : AstroJsonSchema) :
    Except String SchemaDefinition :=
  let collectionNameFromRef := schema.ref_.replace "#/definitions/" ""
  match alookup schema.definitions collectionNameFromRef with
  | none => .error ("Collection definition not found: " ++ collectionName)
  | some collectionDef =>
    match collectionDef.additionalProperties with
    | some (.schema entrySchema) => parseEntrySchema collectionName entrySchema
    | _ => parseEntrySchema collectionName collectionDef

/-- JSON whitespace (also serde_json's). -/
def isJsonWs (c : Char) : Bool := c = ' ' ∨ c = '\t' ∨ c = '\n' ∨ c = '\r'

/-- Hexadecimal digit value. -/
def hexVal (c : Char) : Option Nat :=
  if '0' ≤ c ∧ c ≤ '9' then some (c.toNat - '0'.toNat)
  else if 'a' ≤ c ∧ c ≤ 'f' then some (c.toNat - 'a'.toNat + 10)
  else if 'A' ≤ c ∧ c ≤ 'F' then some (c.toNat - 'A'.toNat + 10)
  else none

/-- Body of a JSON string literal after the opening quote: returns the
decoded string and the suffix after the closing quote. -/
def pjStringBody : List Char → List Char → Except String (String × List Char)
  | [], _ => .error "unterminated string"
  | c :: rest, acc =>
    if c = '"' then .ok (⟨acc.reverse⟩, rest)
    else if c = '\\' then
      match rest with
      | [] => .error "unterminated escape"
      | e :: rest2 =>
        if e = '"' then pjStringBody rest2 ('"' :: acc)
        else if e = '\\' then pjStringBody rest2 ('\\' :: acc)
        else if e = '/' then pjStringBody rest2 ('/' :: acc)
        else if e = 'b' then pjStringBody rest2 (Char.ofNat 8 :: acc)
        else if e = 'f' then pjStringBody rest2 (Char.ofNat 12 :: acc)
        else if e = 'n' then pjStringBody rest2 ('\n' :: acc)
        else if e = 'r' then pjStringBody rest2 ('\r' :: acc)
        else if e = 't' then pjStringBody rest2 ('\t' :: acc)
        else if e = 'u' then
          match rest2 with
          | h1 :: h2 :: h3 :: h4 :: rest3 =>
            match hexVal h1, hexVal h2, hexVal h3, hexVal h4 with
            | some a, some b, some c2, some d =>
              pjStringBody rest3 (Char.ofNat (((a * 16 + b) * 16 + c2) * 16 + d) :: acc)
            | _, _, _, _ => .error "invalid unicode escape"
          | _ => .error "invalid unicode escape"
        else .error "invalid escape"
    else pjStringBody rest (c :: acc)

/-- Digits of a natural number token. -/
def digitsToNat (ds : List Char) : Nat :=
  ds.foldl (fun acc c => acc * 10 + (c.toNat - '0'.toNat)) 0

/-- A JSON number token (sign, integer part, optional fraction, optional
exponent), as an exact `Rat`.  The grammar is modelled loosely (leading
zeros are accepted); no theorem below depends on numeric parsing. -/
def pjNumber (cs : List Char) : Except String (Json × List Char) :=
  let (negSign, cs1) := match cs with
    | '-' :: t => (true, t)
    | _ => (false, cs)
  let intDigits := cs1.takeWhile (fun c : Char => c.isDigit)
  let cs2 := cs1.drop intDigits.length
  if intDigits.isEmpty then .error "invalid number"
  else
    let (fracDigits, cs3) := match cs2 with
      | '.' :: t =>
        let fd := t.takeWhile (fun c : Char => c.isDigit)
        (fd, t.drop fd.length)
      | _ => ([], cs2)
    let (expNeg, expDigits, cs5) := match cs3 with
      | 'e' :: t | 'E' :: t =>
        match t with
        | '-' :: t2 =>
          let ed := t2.takeWhile (fun c : Char => c.isDigit)
          (true, ed, t2.drop ed.length)
        | '+' :: t2 =>
          let ed := t2.takeWhile (fun c : Char => c.isDigit)
          (false, ed, t2.drop ed.length)
        | _ =>
          let ed := t.takeWhile (fun c : Char => c.isDigit)
          (false, ed, t.drop ed.length)
      | _ => (false, [], cs3)
    let mantissa : Rat :=
      (digitsToNat intDigits : Rat) + (digitsToNat fracDigits : Rat) / ((10 : Rat) ^ fracDigits.length)
    let expVal : Int := if expNeg then -(digitsToNat expDigits : Int) else (digitsToNat expDigits : Int)
    let value := (if negSign then -mantissa else mantissa) * (10 : Rat) ^ expVal
    .ok (.num value, cs5)

mutual
/-- Recursive-descent JSON value parser (model of `serde_json::from_str`'s
syntax layer).  `fuel` only bounds the recursion; callers pass a bound
that every input of that length stays under. -/
def parseJsonValue : Nat → List Char → Except String (Json × List Char)
  | 0, _ => .error "recursion limit"
  | fuel + 1, cs =>
    match cs.dropWhile isJsonWs with
    | [] => .error "unexpected end of input"
    | c :: rest =>
      if c = 'n' then
        match dropLit "ull".data rest with
        | some r => .ok (.null, r)
        | none => .error "invalid literal"
      else if c = 't' then
        match dropLit "rue".data rest with
        | some r => .ok (.bool true, r)
        | none => .error "invalid literal"
      else if c = 'f' then
        match dropLit "alse".data rest with
        | some r => .ok (.bool false, r)
        | none => .error "invalid literal"
      else if c = '"' then
        match pjStringBody rest [] with
        | .ok (s, r) => .ok (.str s, r)
        | .error e => .error e
      else if c = '[' then
        match (rest.dropWhile isJsonWs) with
        | ']' :: r => .ok (.arr [], r)
        | _ => parseJsonArrayRest fuel rest []
      else if c = '{' then
        match (rest.dropWhile isJsonWs) with
        | '}' :: r => .ok (.obj [], r)
        | _ => parseJsonObjRest fuel rest []
      else if c = '-' ∨ c.isDigit then pjNumber (c :: rest)
      else .error "unexpected character"

/-- Elements of a JSON array after `[` (or after a `,`). -/
def parseJsonArrayRest : Nat → List Char → List Json → Except String (Json × List Char)
  | 0, _, _ => .error "recursion limit"
  | fuel + 1, cs, acc =>
    match parseJsonValue fuel cs with
    | .error e => .error e
    | .ok (v, r) =>
      match r.dropWhile isJsonWs with
      | ',' :: r2 => parseJsonArrayRest fuel r2 (v :: acc)
      | ']' :: r2 => .ok (.arr (v :: acc).reverse, r2)
      | _ => .error "expected comma or closing bracket"

/-- Entries of a JSON object after `{` (or after a `,`). -/
def parseJsonObjRest : Nat → List Char → List (String × Json) → Except String (Json × List Char)
  | 0, _, _ => .error "recursion limit"
  | fuel + 1, cs, acc =>
    match cs.dropWhile isJsonWs with
    | '"' :: rest =>
      match pjStringBody rest [] with
      | .error e => .error e
      | .ok (k, r) =>
        match r.dropWhile isJsonWs with
        | ':' :: r2 =>
          match parseJsonValue fuel r2 with
          | .error e => .error e
          | .ok (v, r3) =>
            match r3.dropWhile isJsonWs with
            | ',' :: r4 => parseJsonObjRest fuel r4 ((k, v) :: acc)
            | '}' :: r4 => .ok (.obj ((k, v) :: acc).reverse, r4)
            | _ => .error "expected comma or closing brace"
        | _ => .error "expected colon"
    | _ => .error "expected object key"
end

/-- Model of `serde_json::from_str`'s syntax layer: parse one JSON value,
requiring only whitespace after it. -/
def parseJson (s : String) : Except String Json :=
  match parseJsonValue (2 * s.data.length + 2) s.data with
  | .error e => .error e
  | .ok (v, rest) =>
    if (rest.dropWhile isJsonWs).isEmpty then .ok v else .error "trailing characters"

/-- serde's rule for an `Option` struct field: a missing key and an
explicit `null` both decode to `None`.  (Duplicate keys, on which serde
errors, are modelled as first-occurrence lookup; no theorem below feeds a
duplicate key.) -/
def optField (entries : List (String × Json)) (key : String) : Option Json :=
  match alookup entries key with
  | some .null => none
  | v => v

/-- Decode a required `String` struct field. -/
def reqStringField (entries : List (String × Json)) (key : String) : Except String String :=
  match alookup entries key with
  | some (.str s) => .ok s
  | some _ => .error ("invalid type for field " ++ key)
  | none => .error ("missing field " ++ key)

/-- Decode a `Json` string. -/
def decodeString : Json → Except String String
  | .str s => .ok s
  | _ => .error "expected string"

/-- Decode a `Json` boolean. -/
def decodeBool : Json → Except String Bool
  | .bool b => .ok b
  | _ => .error "expected boolean"

/-- Decode a `Json` number (an `f64` field). -/
def decodeRat : Json → Except String Rat
  | .num n => .ok n
  | _ => .error "expected number"

/-- Decode a `Json` number as a `usize` field: a non-negative integer. -/
def decodeNat : Json → Except String Nat
  | .num n => if n.den = 1 ∧ 0 ≤ n.num then .ok n.num.toNat else .error "expected unsigned integer"
  | _ => .error "expected unsigned integer"

/-- Decode a `Json` array of strings. -/
def decodeStringList : Json → Except String (List String)
  | .arr elems =>
    elems.foldr (fun j acc =>
      match decodeString j, acc with
      | .ok s, .ok l => .ok (s :: l)
      | .error e, _ => .error e
      | _, .error e => .error e) (.ok [])
  | _ => .error "expected array of strings"

/-- Decode an optional field's value when present. -/
def decodeOpt {α : Type} (dec : Json → Except String α) : Option Json → Except String (Option α)
  | none => .ok none
  | some j => (dec j).map some

/-- Decode `StringOrArray` (an untagged enum: a string, else an array of
strings). -/
def decodeStringOrArray : Json → Except String StringOrArray
  | .str s => .ok (.str s)
  | .arr elems =>
    (decodeStringList (.arr elems)).map .arr
  | _ => .error "data did not match any variant of StringOrArray"

mutual
/-- Decode `JsonSchemaProperty` from JSON (the serde derive with
`rename_all = "camelCase"`); every field is optional. -/
def decodeSprop : Nat → Json → Except String Sprop
  | 0, _ => .error "recursion limit"
  | fuel + 1, j =>
    match j with
    | .obj entries => do
      let t ← decodeOpt decodeStringOrArray (optField entries "type")
      let f ← decodeOpt decodeString (optField entries "format")
      let ao ← match optField entries "anyOf" with
        | none => .ok none
        | some (.arr elems) => (decodeSpropList fuel elems).map some
        | some _ => .error "anyOf: expected array"
      let e ← decodeOpt decodeStringList (optField entries "enum")
      let cst ← decodeOpt decodeString (optField entries "const")
      let it ← match optField entries "items" with
        | none => .ok none
        | some ij => (decodeItems fuel ij).map some
      let pr ← match optField entries "properties" with
        | none => .ok none
        | some (.obj kvs) => (decodeSpropPairs fuel kvs []).map some
        | some _ => .error "properties: expected object"
      let ap ← match optField entries "additionalProperties" with
        | none => .ok none
        | some (.bool b) => .ok (some (.bool b))
        | some aj => (decodeSprop fuel aj).map (fun p => some (.schema p))
      let rq ← decodeOpt decodeStringList (optField entries "required")
      let d ← decodeOpt decodeString (optField entries "description")
      let md ← decodeOpt decodeString (optField entries "markdownDescription")
      let df := optField entries "default"
      let mn ← decodeOpt decodeRat (optField entries "minimum")
      let mx ← decodeOpt decodeRat (optField entries "maximum")
      let emn ← decodeOpt decodeRat (optField entries "exclusiveMinimum")
      let emx ← decodeOpt decodeRat (optField entries "exclusiveMaximum")
      let mnl ← decodeOpt decodeNat (optField entries "minLength")
      let mxl ← decodeOpt decodeNat (optField entries "maxLength")
      let mni ← decodeOpt decodeNat (optField entries "minItems")
      let mxi ← decodeOpt decodeNat (optField entries "maxItems")
      let pat ← decodeOpt decodeString (optField entries "pattern")
      .ok (.mk t f ao e cst it pr ap rq d md df mn mx emn emx mnl mxl mni mxi pat)
    | _ => .error "expected object"

/-- Decode a list of `JsonSchemaProperty`. -/
def decodeSpropList : Nat → List Json → Except String (List Sprop)
  | 0, _ => .error "recursion limit"
  | _ + 1, [] => .ok []
  | fuel + 1, j :: rest => do
    let p ← decodeSprop fuel j
    let more ← decodeSpropList fuel rest
    .ok (p :: more)

/-- Decode an `IndexMap<String, JsonSchemaProperty>`: entries in document
order, a duplicate key keeping its first position with the later value. -/
def decodeSpropPairs : Nat → List (String × Json) → List (String × Sprop) →
    Except String (List (String × Sprop))
  | 0, _, _ => .error "recursion limit"
  | _ + 1, [], acc => .ok acc
  | fuel + 1, (k, vj) :: rest, acc => do
    let v ← decodeSprop fuel vj
    decodeSpropPairs fuel rest (insertIdx acc k v)

/-- Decode `ItemsType` (untagged: a single schema, else a tuple of
schemas). -/
def decodeItems : Nat → Json → Except String SpropItems
  | 0, _ => .error "recursion limit"
  | fuel + 1, .arr elems => (decodeSpropList fuel elems).map .tuple
  | fuel + 1, j => (decodeSprop fuel j).map .single
end

mutual
/-- Decode `JsonSchemaDefinition`: `type` is required, the rest
optional. -/
def decodeSDef : Nat → Json → Except String SDef
  | 0, _ => .error "recursion limit"
  | fuel + 1, j =>
    match j with
    | .obj entries => do
      let t ← reqStringField entries "type"
      let pr ← match optField entries "properties" with
        | none => .ok none
        | some (.obj kvs) => (decodeSpropPairs fuel kvs []).map some
        | some _ => .error "properties: expected object"
      let rq ← decodeOpt decodeStringList (optField entries "required")
      let ap ← match optField entries "additionalProperties" with
        | none => .ok none
        | some (.bool b) => .ok (some (.bool b))
        | some aj => (decodeSDef fuel aj).map (fun d2 => some (.schema d2))
      .ok (.mk t pr rq ap)
    | _ => .error "expected object"
end

/-- Decode the `definitions` map of `AstroJsonSchema`. -/
def decodeSDefPairs : Nat → List (String × Json) → List (String × SDef) →
    Except String (List (String × SDef))
  | 0, _, _ => .error "recursion limit"
  | _ + 1, [], acc => .ok acc
  | fuel + 1, (k, vj) :: rest, acc => do
    let v ← decodeSDef fuel vj
    decodeSDefPairs fuel rest (insertIdx acc k v)

/-- Decode `AstroJsonSchema`: `$ref` and `definitions` are both
required. -/
def decodeAstro (fuel : Nat) (j : Json) : Except String AstroJsonSchema :=
  match j with
  | .obj entries => do
    let r ← reqStringField entries "$ref"
    let defs ← match alookup entries "definitions" with
      | some (.obj kvs) => decodeSDefPairs fuel kvs []
      | some _ => .error "definitions: expected object"
      | none => .error "missing field definitions"
    .ok { ref_ := r, definitions := defs }
  | _ => .error "expected object"

/-- Model of the local `ZodField` struct of `extract_zod_enhancements`
(schema_merger.rs, lines 904-916). -/
structure ZodEnhField where
  name : String
  type_ : String
  referencedCollection : Option String
  arrayReferenceCollection : Option String
  arrayType : Option String
deriving DecidableEq

/-- Decode one `ZodField` of `extract_zod_enhancements`: `name` and `type`
required, the rest optional. -/
def decodeZodEnhField (j : Json) : Except String ZodEnhField :=
  match j with
  | .obj entries => do
    let n ← reqStringField entries "name"
    let t ← reqStringField entries "type"
    let rc ← decodeOpt decodeString (optField entries "referencedCollection")
    let arc ← decodeOpt decodeString (optField entries "arrayReferenceCollection")
    let at_ ← decodeOpt decodeString (optField entries "arrayType")
    .ok { name := n, type_ := t, referencedCollection := rc,
          arrayReferenceCollection := arc, arrayType := at_ }
  | _ => .error "expected object"

/-- Decode the `fields` array of a zod schema document. -/
def decodeZodEnhFields : List Json → Except String (List ZodEnhField)
  | [] => .ok []
  | j :: rest => do
    let f ← decodeZodEnhField j
    let more ← decodeZodEnhFields rest
    .ok (f :: more)

/-- `HashSet::insert`: only membership is ever observed, so the set is a
duplicate-free list. -/
def insertSet (l : List String) (x : String) : List String :=
  if l.contains x then l else l ++ [x]

/-- The field loop of `extract_zod_enhancements` (schema_merger.rs, lines
924-940): build the reference map (`referenced_collection` first, else
`array_reference_collection`) and the image-field set. -/
def ezLoop : List ZodEnhField → List (String × String) → List String →
    List (String × String) × List String
  | [], referenceMap, imageFields => (referenceMap, imageFields)
  | f :: rest, referenceMap, imageFields =>
    let referenceMap2 := match f.referencedCollection with
      | some collection => insertIdx referenceMap f.name collection
      | none =>
        match f.arrayReferenceCollection with
        | some collection => insertIdx referenceMap f.name collection
        | none => referenceMap
    let imageFields2 :=
      if f.type_ = "Image" ∨ (f.type_ = "Array" ∧ f.arrayType = some "Image") then
        insertSet imageFields f.name
      else imageFields
    ezLoop rest referenceMap2 imageFields2

/-- Model of `extract_zod_enhancements` (schema_merger.rs, lines 896-943):
parse the zod schema JSON and collect reference mappings and image field
names. -/
def extractZodEnhancements (zodSchema : String) :
    Except String (List (String × String) × List String) :=
  match parseJson zodSchema with
  | .error e => .error ("Failed to parse Zod JSON: " ++ e)
  | .ok j =>
    match j with
    | .obj entries =>
      match alookup entries "fields" with
      | some (.arr fieldJsons) =>
        match decodeZodEnhFields fieldJsons with
        | .error e => .error ("Failed to parse Zod JSON: " ++ e)
        | .ok fields => .ok (ezLoop fields [] [])
      | some _ => .error "Failed to parse Zod JSON: invalid type for field fields"
      | none => .error "Failed to parse Zod JSON: missing field fields"
    | _ => .error "Failed to parse Zod JSON: expected object"

/-- The per-field update of `enhance_schema_from_zod` (schema_merger.rs,
lines 868-890): copy the reference target when the field is typed
`reference` (or `array` of `reference`), then upgrade `string` (or
`array` of `string`) to `image` when the heuristic saw an image. -/
def enhanceField (referenceMap : List (String × String)) (imageFields : List String)
    (f : SchemaField) : SchemaField :=
  let f1 := match alookup referenceMap f.name with
    | some collectionName =>
      if f.field_type = "reference" then { f with reference_collection := some collectionName }
      else if f.field_type = "array" ∧ f.sub_type = some "reference" then
        { f with array_reference_collection := some collectionName }
      else f
    | none => f
  if imageFields.contains f.name then
    if f1.field_type = "string" then { f1 with field_type := "image" }
    else if f1.field_type = "array" ∧ f1.sub_type = some "string" then
      { f1 with sub_type := some "image" }
    else f1
  else f1

/-- Model of `enhance_schema_from_zod` (schema_merger.rs, lines 863-893).
The Rust function takes `&mut SchemaDefinition` and returns
`Result<(), String>`; here it returns the pair (result, final state).
When `extract_zod_enhancements` fails the Rust function returns before
touching the schema, so the state is returned unchanged. -/
def enhanceSchemaFromZod (schema : SchemaDefinition) (zodSchema : String) :
    Except String Unit × SchemaDefinition :=
  match extractZodEnhancements zodSchema with
  | .error e => (.error e, schema)
  | .ok (referenceMap, imageFields) =>
    (.ok (), { schema with fields := schema.fields.map (enhanceField referenceMap imageFields) })

/-- Model of `zod_type_to_field_type` (schema_merger.rs, lines 1013-1026). -/
def zodTypeToFieldType (zodType : String) : String :=
  if zodType = "String" then "string"
  else if zodType = "Number" then "number"
  else if zodType = "Boolean" then "boolean"
  else if zodType = "Date" then "date"
  else if zodType = "Array" then "array"
  else if zodType = "Enum" then "enum"
  else if zodType = "Reference" then "reference"
  else if zodType = "Image" then "image"
  else "unknown"

/-- `Value::as_f64` on the model. -/
def jsonAsF64 : Json → Option Rat
  | .num n => some n
  | _ => none

/-- `Value::as_u64` on the model. -/
def jsonAsU64 : Json → Option Nat
  | .num n => if n.den = 1 ∧ 0 ≤ n.num then some n.num.toNat else none
  | _ => none

/-- `Value::as_str` on the model. -/
def jsonAsStr : Json → Option String
  | .str s => some s
  | _ => none

/-- `Value::as_bool` on the model. -/
def jsonAsBool : Json → Option Bool
  | .bool b => some b
  | _ => none

/-- Model of `parse_zod_constraints` (schema_merger.rs, lines 1029-1065). -/
def parseZodConstraints (constraints : Json) : Option FieldConstraints :=
  match constraints with
  | .obj entries =>
    let cmin := (alookup entries "min").bind jsonAsF64
    let cmax := (alookup entries "max").bind jsonAsF64
    let cminLen := (alookup entries "minLength").bind jsonAsU64
    let cmaxLen := (alookup entries "maxLength").bind jsonAsU64
    let cpat := (alookup entries "regex").bind jsonAsStr
    let cfmt :=
      if (((alookup entries "email").bind jsonAsBool).getD false) then some "email"
      else if (((alookup entries "url").bind jsonAsBool).getD false) then some "uri"
      else none
    if cmin.isSome ∨ cmax.isSome ∨ cminLen.isSome ∨ cmaxLen.isSome ∨
        cpat.isSome ∨ cfmt.isSome then
      some { min := cmin, max := cmax, min_length := cminLen, max_length := cmaxLen,
             pattern := cpat, format := cfmt }
    else none
  | _ => none

/-- Model of the local `ZodField` struct of `parse_zod_schema`
(schema_merger.rs, lines 956-976). -/
structure ZodFallbackField where
  name : String
  type_ : String
  optional : Bool
  default : Option String
  options : Option (List String)
  constraints : Option Json
  arrayType : Option String
  referencedCollection : Option String
  arrayReferenceCollection : Option String

/-- Decode one `ZodField` of `parse_zod_schema`: `name`, `type` and
`optional` required, the rest optional. -/
def decodeZodFallbackField (j : Json) : Except String ZodFallbackField :=
  match j with
  | .obj entries => do
    let n ← reqStringField entries "name"
    let t ← reqStringField entries "type"
    let o ← match alookup entries "optional" with
      | some (.bool b) => .ok b
      | some _ => .error "invalid type for field optional"
      | none => .error "missing field optional"
    let df ← decodeOpt decodeString (optField entries "default")
    let opts ← decodeOpt decodeStringList (optField entries "options")
    let cons := optField entries "constraints"
    let at_ ← decodeOpt decodeString (optField entries "arrayType")
    let rc ← decodeOpt decodeString (optField entries "referencedCollection")
    let arc ← decodeOpt decodeString (optField entries "arrayReferenceCollection")
    .ok { name := n, type_ := t, optional := o, default := df, options := opts,
          constraints := cons, arrayType := at_, referencedCollection := rc,
          arrayReferenceCollection := arc }
  | _ => .error "expected object"

/-- Decode the `fields` array of `parse_zod_schema`. -/
def decodeZodFallbackFields : List Json → Except String (List ZodFallbackField)
  | [] => .ok []
  | j :: rest => do
    let f ← decodeZodFallbackField j
    let more ← decodeZodFallbackFields rest
    .ok (f :: more)

/-- The per-field conversion of `parse_zod_schema` (schema_merger.rs,
lines 984-1003). -/
def zodFieldToSchemaField (f : ZodFallbackField) : SchemaField :=
  { name := f.name,
    label := camelCaseToTitleCase f.name,
    field_type := zodTypeToFieldType f.type_,
    sub_type := f.arrayType.map zodTypeToFieldType,
    required := !f.optional,
    constraints := f.constraints.bind parseZodConstraints,
    description := none,
    default := f.default.map Json.str,
    enum_values := f.options,
    reference_collection := f.referencedCollection,
    array_reference_collection := f.arrayReferenceCollection,
    is_nested := none,
    parent_path := none }

/-- Model of `parse_zod_schema` (schema_merger.rs, lines 946-1010): the
zod-only fallback.  The local `ZodSchema` struct requires both `type` and
`fields`. -/
def parseZodSchema (collectionName : String) (zodSchema : String) :
    Except String SchemaDefinition :=
  match parseJson zodSchema with
  | .error e => .error ("Failed to parse Zod JSON: " ++ e)
  | .ok j =>
    match j with
    | .obj entries =>
      match reqStringField entries "type" with
      | .error e => .error ("Failed to parse Zod JSON: " ++ e)
      | .ok _ =>
        match alookup entries "fields" with
        | some (.arr fieldJsons) =>
          match decodeZodFallbackFields fieldJsons with
          | .error e => .error ("Failed to parse Zod JSON: " ++ e)
          | .ok fields =>
            .ok { collection_name := collectionName,
                  fields := fields.map zodFieldToSchemaField }
        | some _ => .error "Failed to parse Zod JSON: invalid type for field fields"
        | none => .error "Failed to parse Zod JSON: missing field fields"
    | _ => .error "Failed to parse Zod JSON: expected object"

/-- Model of `parse_json_schema` (schema_merger.rs, lines 231-257):
`serde_json` parse and decode, then `parseJsonSchemaDoc`. -/
def parseJsonSchema (collectionName : String) (jsonSchema : String) :
    Except String SchemaDefinition :=
  match parseJson jsonSchema with
  | .error e => .error ("Failed to parse JSON: " ++ e)
  | .ok j =>
    match decodeAstro (3 * jsonSchema.length + 3) j with
    | .error e => .error ("Failed to parse JSON: " ++ e)
    | .ok schema => parseJsonSchemaDoc collectionName schema

/-- Model of `create_complete_schema` (schema_merger.rs, lines 184-228):
JSON Schema backbone enhanced by the zod heuristics, falling back to
zod-only parsing, else a typed error. -/
def createCompleteSchema (collectionName : String)
    (jsonSchema zodSchema : Option String) : Except String SchemaDefinition :=
  match jsonSchema with
  | some json =>
    match parseJsonSchema collectionName json with
    | .ok schema =>
      match zodSchema with
      | some zod => .ok (enhanceSchemaFromZod schema zod).2
      | none => .ok schema
    | .error _ =>
      match zodSchema with
      | some zod => parseZodSchema collectionName zod
      | none => .error "No schema available"
  | none =>
    match zodSchema with
    | some zod => parseZodSchema collectionName zod
    | none => .error "No schema available"

/-- C1: the claim states that every function of the schema resolution
pipeline returns normally (a value or a typed error) and never panics, on
every UTF-8 input including non-ASCII text.  The code refutes this: on the
schema body `"日日日日:image()"` the helper scanner reports the `image()`
helper at byte offset 13 (each `日` is 3 bytes), but
`find_field_name_backwards` indexes the 12-element `Vec<char>` with that
byte offset, which panics (index out of bounds); the panic propagates
through `resolve_field_path` into `extract_zod_special_fields`.  This
theorem evaluates the model at that failing input. -/
theorem c1_find_field_name_backwards_panics_on_multibyte :
    findHelperCalls "日日日日:image()" =
      [{ helperType := .image, position := 13, collectionName := none }] ∧
    findFieldNameBackwards "日日日日:image()" 13 = .panicked "index out of bounds" ∧
    extractZodSpecialFields "日日日日:image()" = .panicked "index out of bounds" := by
  refine ⟨by decide, by decide, ?_⟩
  rfl

/-- C2 counterexample: the claim states that every newline character lying
inside a block comment is preserved in the output of `remove_comments`.
On the input `"a/*\n*/b"` the newline lies inside the block comment, yet
the output is `"ab"`, which contains no newline at all. -/
theorem c2_counterexample_newline_dropped :
    removeComments "a/*\n*/b" = "ab" ∧
    '\n' ∈ "a/*\n*/b".data ∧
    '\n' ∉ (removeComments "a/*\n*/b").data := by
  refine ⟨by decide, by decide, by decide⟩

/-- The schema body of the first C7 example. -/
def c7CoverText : String :=
  "z.object(\x7b coverImage: z.object(\x7b image: image() \x7d) \x7d)"

/-- The schema body of the second (triply nested) C7 example. -/
def c7TripleText : String :=
  "z.object(\x7b metadata: z.object(\x7b author: z.object(\x7b avatar: image() \x7d) \x7d) \x7d)"

/-- C7: for a helper call inside nested object literals the Field Path
Resolver returns the fully dotted path: for
`z.object({ coverImage: z.object({ image: image() }) })` it resolves to
`"coverImage.image"`, and for the triply nested
`metadata`/`author`/`avatar` example it resolves to
`"metadata.author.avatar"`. -/
theorem c7_nested_field_paths_resolved :
    findHelperCalls c7CoverText =
      [{ helperType := .image, position := 41, collectionName := none }] ∧
    resolveFieldPath c7CoverText 41 = .val (.ok "coverImage.image") ∧
    findHelperCalls c7TripleText =
      [{ helperType := .image, position := 59, collectionName := none }] ∧
    resolveFieldPath c7TripleText 59 = .val (.ok "metadata.author.avatar") := by
  refine ⟨by decide, ?_, by decide, ?_⟩ <;> rfl

/-- The schema body of the C8 example. -/
def c8ArrayRefText : String := "tags: z.array(reference(\x27tags\x27))"

/-- C8: for a field `tags: z.array(reference('tags'))` the heuristic
extraction produces an array-typed descriptor with `arrayType`
`"Reference"` and `arrayReferenceCollection` `"tags"`; array detection
holds because `z.array(` occurs between the field's colon and the helper
position (`is_inside_array` returns true there). -/
theorem c8_array_reference_descriptor :
    findHelperCalls c8ArrayRefText =
      [{ helperType := .reference, position := 14, collectionName := some "tags" }] ∧
    isInsideArray c8ArrayRefText 14 = .val true ∧
    extractZodSpecialFields c8ArrayRefText =
      .val (some (.obj [("type", .str "zod"),
        ("fields", .arr [.obj [("name", .str "tags"), ("type", .str "Array"),
          ("arrayType", .str "Reference"), ("arrayReferenceCollection", .str "tags"),
          ("optional", .bool true), ("default", .null), ("constraints", .obj [])]])])) := by
  refine ⟨by decide, by decide, ?_⟩
  rfl

/-- Inside a block comment, every character other than `*` is dropped; a
`*/` pair ends the comment and the scan continues in the initial state. -/
theorem rcLoop_block_comment_skips (cs : List Char) (h : '*' ∉ cs) (rest : List Char) :
    rcLoop (cs ++ '*' :: '/' :: rest) { rcInit with inBlockComment := true } =
      rcLoop rest rcInit := by
  induction cs with
  | nil =>
    show rcLoop ('*' :: '/' :: rest) _ = _
    simp [rcLoop, rcStep, rcInit]
  | cons c cs ih =>
    have hc : ¬ c = '*' := fun hc => h (by simp [hc])
    have hcs : '*' ∉ cs := fun hm => h (List.mem_cons_of_mem _ hm)
    cases hsplit : cs ++ '*' :: '/' :: rest with
    | nil => simp at hsplit
    | cons hd tl =>
      calc rcLoop (c :: (cs ++ '*' :: '/' :: rest)) { rcInit with inBlockComment := true }
          = rcLoop (cs ++ '*' :: '/' :: rest) { rcInit with inBlockComment := true } := by
            rw [hsplit]
            simp [rcLoop, rcStep, rcInit, hc]
        _ = rcLoop rest rcInit := ih hcs

/-- Inside a line comment, every character before the newline is dropped;
the newline is emitted and the scan continues in the initial state. -/
theorem rcLoop_line_comment_skips (cs : List Char) (h : '\n' ∉ cs) (rest : List Char) :
    rcLoop (cs ++ '\n' :: rest) { rcInit with inLineComment := true } =
      '\n' :: rcLoop rest rcInit := by
  induction cs with
  | nil =>
    show rcLoop ('\n' :: rest) _ = _
    cases rest with
    | nil => simp [rcLoop, rcStep, rcInit]
    | cons r rs => simp [rcLoop, rcStep, rcInit]
  | cons c cs ih =>
    have hc : ¬ c = '\n' := fun hc => h (by simp [hc])
    have hcs : '\n' ∉ cs := fun hm => h (List.mem_cons_of_mem _ hm)
    cases hsplit : cs ++ '\n' :: rest with
    | nil => simp at hsplit
    | cons hd tl =>
      calc rcLoop (c :: (cs ++ '\n' :: rest)) { rcInit with inLineComment := true }
          = rcLoop (cs ++ '\n' :: rest) { rcInit with inLineComment := true } := by
            rw [hsplit]
            simp [rcLoop, rcStep, rcInit, hc]
        _ = '\n' :: rcLoop rest rcInit := ih hcs

/-- C2 amended: `remove_comments` removes line-comment spans (keeping the
terminating newline of a `//` comment) and removes block-comment spans
entirely: no character inside a `/*...*/` span, newline characters
included, appears in the output (block comments do not leave empty
lines behind). -/
theorem c2_amended_comment_spans_removed :
    (∀ (cs rest : List Char), '*' ∉ cs →
      rcLoop ('/' :: '*' :: (cs ++ '*' :: '/' :: rest)) rcInit = rcLoop rest rcInit) ∧
    (∀ (cs rest : List Char), '\n' ∉ cs →
      rcLoop ('/' :: '/' :: (cs ++ '\n' :: rest)) rcInit = '\n' :: rcLoop rest rcInit) := by
  constructor
  · intro cs rest h
    have hstep : rcStep '/' rcInit = none := by decide
    calc rcLoop ('/' :: '*' :: (cs ++ '*' :: '/' :: rest)) rcInit
        = rcLoop (cs ++ '*' :: '/' :: rest) { rcInit with inBlockComment := true } := by
          simp only [rcLoop, hstep]
          simp [rcInit]
      _ = rcLoop rest rcInit := rcLoop_block_comment_skips cs h rest
  · intro cs rest h
    have hstep : rcStep '/' rcInit = none := by decide
    calc rcLoop ('/' :: '/' :: (cs ++ '\n' :: rest)) rcInit
        = rcLoop (cs ++ '\n' :: rest) { rcInit with inLineComment := true } := by
          simp only [rcLoop, hstep]
          simp [rcInit]
      _ = '\n' :: rcLoop rest rcInit := rcLoop_line_comment_skips cs h rest

/-- Witness for the amended C2 theorem: a block comment containing only a
newline disappears entirely, and a line comment keeps its newline, on
concrete inputs. -/
theorem c2_amended_witness :
    rcLoop ('/' :: '*' :: (['\n'] ++ '*' :: '/' :: "b".data)) rcInit = rcLoop "b".data rcInit ∧
    rcLoop ('/' :: '/' :: ([' '] ++ '\n' :: "b".data)) rcInit = '\n' :: rcLoop "b".data rcInit :=
  ⟨c2_amended_comment_spans_removed.1 ['\n'] "b".data (by decide),
   c2_amended_comment_spans_removed.2 [' '] "b".data (by decide)⟩

/-- C3: for a JSON Schema property whose `anyOf` has exactly two branches,
one of type `null` and the other a bare primitive (`number`, `integer`,
`boolean`, or `string` without an enum) — bare meaning the branch carries
no `format`, so the date rule, which has priority, cannot fire — in either
order, `handle_anyof_type` classifies the field as that primitive's type.
In particular `{"anyOf":[{"type":"number"},{"type":"null"}]}` yields
`"number"`, not `"string"`. -/
theorem c3_nullable_primitive_anyof
    (bPrim bNull : Sprop) (t : String)
    (hNullType : bNull.type_ = some (.str "null"))
    (hNullFormat : bNull.format = none)
    (hPrimType : bPrim.type_ = some (.str t))
    (hPrimFormat : bPrim.format = none)
    (ht : t = "number" ∨ t = "integer" ∨ t = "boolean" ∨ (t = "string" ∧ bPrim.enum_ = none)) :
    handleAnyofType [bPrim, bNull] = .ok (ftiPlain t) ∧
    handleAnyofType [bNull, bPrim] = .ok (ftiPlain t) := by
  cases bPrim with
  | mk tp fp aop ep cp itp prp app rqp dp mdp dfp mnp mxp emnp emxp mnlp mxlp mnip mxip patp =>
    cases bNull with
    | mk tn fn aon en cn itn prn apn rqn dn mdn dfn mnn mxn emnn emxn mnln mxln mnin mxin patn =>
      simp only [Sprop.type_, Sprop.format, Sprop.enum_] at hNullType hNullFormat hPrimType hPrimFormat ht
      subst hNullType hNullFormat hPrimType hPrimFormat
      rcases ht with h | h | h | ⟨h, henum⟩ <;> subst h
      case mk.mk.inl =>
        constructor <;>
          simp [handleAnyofType, isDateField, isReferenceField, Sprop.type_, Sprop.format,
            Sprop.properties, Sprop.enum_, extractNullablePrimitiveType, enptLoop, ftiPlain]
      case mk.mk.inr.inl =>
        constructor <;>
          simp [handleAnyofType, isDateField, isReferenceField, Sprop.type_, Sprop.format,
            Sprop.properties, Sprop.enum_, extractNullablePrimitiveType, enptLoop, ftiPlain]
      case mk.mk.inr.inr.inl =>
        constructor <;>
          simp [handleAnyofType, isDateField, isReferenceField, Sprop.type_, Sprop.format,
            Sprop.properties, Sprop.enum_, extractNullablePrimitiveType, enptLoop, ftiPlain]
      case mk.mk.inr.inr.inr.intro =>
        subst henum
        constructor <;>
          simp [handleAnyofType, isDateField, isReferenceField, Sprop.type_, Sprop.format,
            Sprop.properties, Sprop.enum_, extractNullablePrimitiveType, enptLoop, ftiPlain]

/-- The `{"type":"number"}` branch of the C3 witness. -/
def c3NumberProp : Sprop :=
  .mk (some (.str "number")) none none none none none none none none none none none
    none none none none none none none none none

/-- The `{"type":"null"}` branch of the C3 witness. -/
def c3NullProp : Sprop :=
  .mk (some (.str "null")) none none none none none none none none none none none
    none none none none none none none none none

/-- Witness for C3: the regression instance `anyOf [number, null]` (both
orders) is classified `"number"`. -/
theorem c3_witness :
    handleAnyofType [c3NumberProp, c3NullProp] = .ok (ftiPlain "number") ∧
    handleAnyofType [c3NullProp, c3NumberProp] = .ok (ftiPlain "number") :=
  c3_nullable_primitive_anyof c3NumberProp c3NullProp "number" rfl rfl rfl rfl (Or.inl rfl)

/-- The members of a `SchemaField` that `enhance_schema_from_zod` never
touches: everything except `field_type`, `sub_type`,
`reference_collection` and `array_reference_collection`. -/
def frameView (f : SchemaField) :
    String × String × Bool × Option FieldConstraints × Option String × Option Json ×
      Option (List String) × Option Bool × Option String :=
  (f.name, f.label, f.required, f.constraints, f.description, f.default,
   f.enum_values, f.is_nested, f.parent_path)

/-- The per-field enhancement touches only `field_type`, `sub_type`,
`reference_collection` and `array_reference_collection`. -/
theorem frameView_enhanceField (rm : List (String × String)) (im : List String)
    (f : SchemaField) : frameView (enhanceField rm im f) = frameView f := by
  unfold enhanceField
  cases halk : alookup rm f.name <;>
    (split_ifs <;> simp_all [frameView]) <;>
    (try split_ifs <;> simp_all [frameView])

/-- C10: `enhance_schema_from_zod` modifies at most the `field_type`,
`sub_type`, `reference_collection` and `array_reference_collection`
members of existing fields: every other member, the number and order of
fields, and the collection name are unchanged, and when the function
returns an error the `SchemaDefinition` is entirely unchanged. -/
theorem c10_enhance_frame (schema : SchemaDefinition) (zodSchema : String) :
    (enhanceSchemaFromZod schema zodSchema).2.collection_name = schema.collection_name ∧
    (enhanceSchemaFromZod schema zodSchema).2.fields.map frameView =
      schema.fields.map frameView ∧
    (∀ e, (enhanceSchemaFromZod schema zodSchema).1 = .error e →
      (enhanceSchemaFromZod schema zodSchema).2 = schema) := by
  unfold enhanceSchemaFromZod
  cases hx : extractZodEnhancements zodSchema with
  | error e => exact ⟨rfl, rfl, fun _ _ => rfl⟩
  | ok rmim =>
    obtain ⟨rm, im⟩ := rmim
    refine ⟨rfl, ?_, ?_⟩
    · show (schema.fields.map (enhanceField rm im)).map frameView = schema.fields.map frameView
      rw [List.map_map]
      exact List.map_congr_left (fun f _ => frameView_enhanceField rm im f)
    · intro e h
      simp at h

/-- A concrete schema for the C10 witness. -/
def c10Schema : SchemaDefinition := { collection_name := "c10", fields := [] }

/-- Witness for C10 at a concrete schema and a zod string that fails to
parse: the frame equalities hold and the error case leaves the schema
unchanged. -/
theorem c10_witness :
    (enhanceSchemaFromZod c10Schema "x").2.collection_name = c10Schema.collection_name ∧
    (enhanceSchemaFromZod c10Schema "x").2.fields.map frameView =
      c10Schema.fields.map frameView ∧
    (enhanceSchemaFromZod c10Schema "x").2 = c10Schema :=
  ⟨(c10_enhance_frame c10Schema "x").1, (c10_enhance_frame c10Schema "x").2.1,
   (c10_enhance_frame c10Schema "x").2.2
     "Failed to parse Zod JSON: unexpected character" (by rfl)⟩

/-- A backbone field typed `string` named `author` (C6 counterexample). -/
def c6StringField : SchemaField :=
  { name := "author", label := "Author", field_type := "string", sub_type := none,
    required := false, constraints := none, description := none, default := none,
    enum_values := none, reference_collection := none, array_reference_collection := none,
    is_nested := none, parent_path := none }

/-- A backbone schema with the single `string` field `author`. -/
def c6Schema : SchemaDefinition := { collection_name := "posts", fields := [c6StringField] }

/-- A heuristic zod schema mapping `author` to the collection `authors`. -/
def c6Zod : String :=
  "\x7b\"fields\":[\x7b\"name\":\"author\",\"type\":\"Reference\",\"referencedCollection\":\"authors\"\x7d]\x7d"

/-- C6 counterexample: the claim states that whenever a backbone field's
dotted name matches a heuristic field, the reference target is copied into
`reference_collection` (or `array_reference_collection` for arrays).  On a
backbone field typed `string` named `author` and a heuristic schema whose
reference map contains `author ↦ authors`, the overlay copies nothing:
both reference slots stay `none`. -/
theorem c6_counterexample_string_field_not_copied :
    extractZodEnhancements c6Zod = .ok ([("author", "authors")], []) ∧
    (enhanceSchemaFromZod c6Schema c6Zod).1 = .ok () ∧
    (enhanceSchemaFromZod c6Schema c6Zod).2.fields.map (fun f => f.reference_collection) =
      [none] ∧
    (enhanceSchemaFromZod c6Schema c6Zod).2.fields.map (fun f => f.array_reference_collection) =
      [none] :=
  ⟨by rfl, by rfl, by rfl, by rfl⟩

/-- C6 amended: when a backbone field's dotted name matches a heuristic
field, the overlay copies the heuristic reference target into
`reference_collection` only when the backbone typed the field
`reference`, and into `array_reference_collection` only when it typed it
`array` with sub-type `reference`; fields of any other type keep both
reference slots unchanged.  Where the backbone typed the field a bare
`string` (or array of `string`) and the heuristic identified an image,
the field type (or array sub-type) is upgraded to `image`.  The overlay
applies this per-field update to every backbone field. -/
theorem c6_amended_overlay (referenceMap : List (String × String))
    (imageFields : List String) (f : SchemaField) :
    (∀ c, alookup referenceMap f.name = some c →
      (f.field_type = "reference" →
        (enhanceField referenceMap imageFields f).reference_collection = some c) ∧
      (f.field_type = "array" ∧ f.sub_type = some "reference" →
        (enhanceField referenceMap imageFields f).array_reference_collection = some c)) ∧
    (f.field_type ≠ "reference" →
      (enhanceField referenceMap imageFields f).reference_collection =
        f.reference_collection) ∧
    (¬ (f.field_type = "array" ∧ f.sub_type = some "reference") →
      (enhanceField referenceMap imageFields f).array_reference_collection =
        f.array_reference_collection) ∧
    (imageFields.contains f.name = true →
      (f.field_type = "string" →
        (enhanceField referenceMap imageFields f).field_type = "image") ∧
      (f.field_type = "array" ∧ f.sub_type = some "string" →
        (enhanceField referenceMap imageFields f).sub_type = some "image")) ∧
    (∀ (schema : SchemaDefinition) (zod : String) rm im,
      extractZodEnhancements zod = .ok (rm, im) →
      (enhanceSchemaFromZod schema zod).2.fields = schema.fields.map (enhanceField rm im)) := by
  refine ⟨?_, ?_, ?_, ?_, ?_⟩
  · intro c hc
    constructor
    · intro href
      simp only [enhanceField, hc]
      split_ifs <;> simp_all
    · rintro ⟨harr, hsub⟩
      simp only [enhanceField, hc]
      split_ifs <;> simp_all
  · intro href
    simp only [enhanceField]
    cases hc : alookup referenceMap f.name <;> split_ifs <;> simp_all
  · intro harr
    simp only [enhanceField]
    cases hc : alookup referenceMap f.name <;> split_ifs <;> simp_all
  · intro him
    constructor
    · intro hstr
      simp only [enhanceField]
      cases hc : alookup referenceMap f.name <;> split_ifs <;> simp_all
    · rintro ⟨harr, hsub⟩
      simp only [enhanceField]
      cases hc : alookup referenceMap f.name <;> split_ifs <;> simp_all
  · intro schema zod rm im hx
    simp [enhanceSchemaFromZod, hx]

/-- A backbone field typed `reference` named `author` (C6 witness). -/
def c6RefField : SchemaField :=
  { name := "author", label := "Author", field_type := "reference", sub_type := none,
    required := false, constraints := none, description := none, default := none,
    enum_values := none, reference_collection := none, array_reference_collection := none,
    is_nested := none, parent_path := none }

/-- Witness for the amended C6 theorem at concrete inputs: a
`reference`-typed backbone field receives the heuristic target, and the
overlay maps the per-field update over the whole schema. -/
theorem c6_amended_witness :
    (enhanceField [("author", "authors")] [] c6RefField).reference_collection =
      some "authors" ∧
    (enhanceSchemaFromZod { collection_name := "posts", fields := [c6RefField] } c6Zod).2.fields =
      [c6RefField].map (enhanceField [("author", "authors")] []) :=
  ⟨((c6_amended_overlay [("author", "authors")] [] c6RefField).1 "authors" (by rfl)).1 (by rfl),
   (c6_amended_overlay [("author", "authors")] [] c6RefField).2.2.2.2
     { collection_name := "posts", fields := [c6RefField] } c6Zod
     [("author", "authors")] [] (by rfl)⟩

/-- A successful `parse_zod_schema` result is always the field-by-field
conversion of the decoded zod fields. -/
theorem parseZodSchema_ok_shape (cn zod : String) (sd : SchemaDefinition)
    (h : parseZodSchema cn zod = .ok sd) :
    ∃ fs : List ZodFallbackField,
      sd = { collection_name := cn, fields := fs.map zodFieldToSchemaField } := by
  unfold parseZodSchema at h
  repeat' split at h
  all_goals try cases h
  exact ⟨_, rfl⟩

/-- C5: `create_complete_schema` is a fallback chain: with no JSON Schema
(or one that fails to parse) and a heuristic schema present, the result
is exactly the heuristic-only interpretation `parse_zod_schema` (whose
fields have labels title-cased from the field names, `required` equal to
not-`optional`, and no nesting metadata); with neither source, it is the
typed error `"No schema available"`. -/
theorem c5_fallback_chain (collectionName : String) (zod : String) :
    (createCompleteSchema collectionName none (some zod) = parseZodSchema collectionName zod) ∧
    (∀ json e, parseJsonSchema collectionName json = .error e →
      createCompleteSchema collectionName (some json) (some zod) =
        parseZodSchema collectionName zod) ∧
    (createCompleteSchema collectionName none none = .error "No schema available") ∧
    (∀ sd, parseZodSchema collectionName zod = .ok sd →
      ∀ f ∈ sd.fields, f.label = camelCaseToTitleCase f.name ∧
        f.is_nested = none ∧ f.parent_path = none) ∧
    (∀ (fs : List ZodFallbackField),
      List.Forall₂ (fun (zf : ZodFallbackField) (f : SchemaField) =>
        f.required = !zf.optional ∧ f.label = camelCaseToTitleCase zf.name ∧
        f.is_nested = none ∧ f.parent_path = none) fs (fs.map zodFieldToSchemaField)) := by
  refine ⟨rfl, ?_, rfl, ?_, ?_⟩
  · intro json e h
    simp [createCompleteSchema, h]
  · intro sd hsd f hf
    obtain ⟨fs, rfl⟩ := parseZodSchema_ok_shape collectionName zod sd hsd
    simp only [List.mem_map] at hf
    obtain ⟨zf, _, rfl⟩ := hf
    exact ⟨rfl, rfl, rfl⟩
  · intro fs
    induction fs with
    | nil => exact .nil
    | cons zf fs ih => exact .cons ⟨rfl, rfl, rfl, rfl⟩ ih

/-- The heuristic zod schema of the C5 witness. -/
def c5Zod : String :=
  "\x7b\"type\":\"zod\",\"fields\":[\x7b\"name\":\"heroImage\",\"type\":\"Image\",\"optional\":true,\"default\":null,\"constraints\":\x7b\x7d\x7d]\x7d"

/-- Witness for C5 at concrete inputs: an empty (unparseable) JSON Schema
falls back to the heuristic-only interpretation, and with neither source
the result is the typed error. -/
theorem c5_witness :
    createCompleteSchema "blog" (some "") (some c5Zod) = parseZodSchema "blog" c5Zod ∧
    createCompleteSchema "blog" none none = .error "No schema available" :=
  ⟨(c5_fallback_chain "blog" c5Zod).2.1 ""
     "Failed to parse JSON: unexpected end of input" (by rfl),
   (c5_fallback_chain "blog" c5Zod).2.2.1⟩

/-- The `full_path` computation of `parse_field` (schema_merger.rs, lines
319-323). -/
def fullPathOf (parentPath fieldName : String) : String :=
  if parentPath.isEmpty then fieldName else parentPath ++ "." ++ fieldName

/-- A property on which `parse_field` takes its single-field branch: its
type classification succeeds and the flatten condition (classified
`unknown`, `type: object`, has `properties`) does not hold. -/
def isLeafProp (s : Sprop) : Bool :=
  match determineFieldType s with
  | .ok fti =>
    !(fti.fieldType == "unknown" && s.type_ == some (.str "object") && s.properties.isSome)
  | .error _ => false

/-- On a leaf property, `parse_field` emits exactly one field, whose name
is the dotted path, whose nesting metadata reflects the parent path, and
whose `required` flag is the conjunction of the passed requiredness and
the absence of a default. -/
theorem parseField_leaf (n : String) (q : Sprop) (r : Bool) (pp : String)
    (h : isLeafProp q = true) :
    ∃ f, parseField n q r pp = .ok [f] ∧
      f.name = fullPathOf pp n ∧
      f.is_nested = (if pp.isEmpty then none else some true) ∧
      f.parent_path = (if pp.isEmpty then none else some pp) ∧
      f.required = (r && q.default.isNone) ∧
      f.default = q.default := by
  cases q with
  | mk t f2 ao e c it pr ap rq d md df mn mx emn emx mnl mxl mni mxi pat =>
    unfold isLeafProp at h
    cases hdft : determineFieldType
        (Sprop.mk t f2 ao e c it pr ap rq d md df mn mx emn emx mnl mxl mni mxi pat) with
    | error e2 => rw [hdft] at h; simp at h
    | ok fti =>
      rw [hdft] at h
      cases pr with
      | none =>
        have hpf : parseField n
            (Sprop.mk t f2 ao e c it none ap rq d md df mn mx emn emx mnl mxl mni mxi pat) r pp =
            .ok [{ name := if pp.isEmpty then n else pp ++ "." ++ n,
                   label := camelCaseToTitleCase n,
                   field_type := fti.fieldType, sub_type := fti.subType,
                   required := r && df.isNone,
                   constraints := extractConstraints
                     (Sprop.mk t f2 ao e c it none ap rq d md df mn mx emn emx mnl mxl mni mxi pat)
                     fti.fieldType,
                   description := (match d with | some v => some v | none => md),
                   default := df, enum_values := fti.enumValues,
                   reference_collection := fti.referenceCollection,
                   array_reference_collection := fti.arrayReferenceCollection,
                   is_nested := if !pp.isEmpty then some true else none,
                   parent_path := if !pp.isEmpty then some pp else none }] := by
          simp only [parseField, hdft]
          cases d <;> rfl
        refine ⟨_, hpf, rfl, ?_, ?_, rfl, rfl⟩
        · cases hpp : pp.isEmpty <;> simp [hpp]
        · cases hpp : pp.isEmpty <;> simp [hpp]
      | some ps =>
        have hcond : ¬ (fti.fieldType = "unknown" ∧ t = some (.str "object")) := by
          simp only [Sprop.type_, Sprop.properties, Option.isSome_some, Bool.and_true,
            Bool.not_eq_true', Bool.and_eq_false_iff] at h
          intro hand
          rcases h with h | h <;> simp [hand.1, hand.2] at h
        have hpf : parseField n
            (Sprop.mk t f2 ao e c it (some ps) ap rq d md df mn mx emn emx mnl mxl mni mxi pat) r pp =
            .ok [{ name := if pp.isEmpty then n else pp ++ "." ++ n,
                   label := camelCaseToTitleCase n,
                   field_type := fti.fieldType, sub_type := fti.subType,
                   required := r && df.isNone,
                   constraints := extractConstraints
                     (Sprop.mk t f2 ao e c it (some ps) ap rq d md df mn mx emn emx mnl mxl mni mxi pat)
                     fti.fieldType,
                   description := (match d with | some v => some v | none => md),
                   default := df, enum_values := fti.enumValues,
                   reference_collection := fti.referenceCollection,
                   array_reference_collection := fti.arrayReferenceCollection,
                   is_nested := if !pp.isEmpty then some true else none,
                   parent_path := if !pp.isEmpty then some pp else none }] := by
          simp only [parseField, hdft]
          rw [if_neg hcond]
          cases d <;> rfl
        refine ⟨_, hpf, rfl, ?_, ?_, rfl, rfl⟩
        · cases hpp : pp.isEmpty <;> simp [hpp]
        · cases hpp : pp.isEmpty <;> simp [hpp]

/-- Over a list of leaf properties, the flatten loop of `parse_field`
succeeds and emits, in order, one field per property, each carrying the
dotted name, the nesting metadata, and the requiredness drawn from the
nested `required` list. -/
theorem parseFieldList_leaves (ps : List (String × Sprop)) (nestedReq : List String)
    (fullPath : String) (hfp : fullPath.isEmpty = false)
    (h : ∀ p ∈ ps, isLeafProp p.2 = true) :
    ∃ fs, parseFieldList ps nestedReq fullPath = .ok fs ∧
      List.Forall₂ (fun (p : String × Sprop) (f : SchemaField) =>
        f.name = fullPath ++ "." ++ p.1 ∧
        f.is_nested = some true ∧
        f.parent_path = some fullPath ∧
        f.required = (nestedReq.contains p.1 && p.2.default.isNone)) ps fs ∧
      ∀ f ∈ fs, ∃ p ∈ ps, f.name = fullPath ++ "." ++ p.1 := by
  induction ps with
  | nil => exact ⟨[], rfl, .nil, by simp⟩
  | cons hd rest ih =>
    obtain ⟨n, q⟩ := hd
    obtain ⟨f, hpf, hname, hnest, hpp, hreq, _⟩ :=
      parseField_leaf n q (nestedReq.contains n) fullPath (h (n, q) (by simp))
    obtain ⟨fs, hfs, hfa, hmem⟩ := ih (fun p hp => h p (List.mem_cons_of_mem _ hp))
    refine ⟨f :: fs, ?_, ?_, ?_⟩
    · simp only [parseFieldList, hpf, hfs]
      rfl
    · refine .cons ⟨?_, ?_, ?_, hreq⟩ hfa
      · rw [hname]; simp [fullPathOf, hfp]
      · rw [hnest]; simp [hfp]
      · rw [hpp]; simp [hfp]
    · intro g hg
      rcases hg with _ | hg2
      · exact ⟨(n, q), by simp, by rw [hname]; simp [fullPathOf, hfp]⟩
      · obtain ⟨p, hp1, hp2⟩ := hmem g (by assumption)
        exact ⟨p, List.mem_cons_of_mem _ hp1, hp2⟩

/-- A dotted extension of a string is never equal to the string itself. -/
theorem append_dot_ne (a b : String) : a ++ "." ++ b ≠ a := by
  intro h
  have hlen := congrArg String.length h
  rw [String.length_append, String.length_append] at hlen
  have hone : (".").length = 1 := rfl
  omega

/-- C4: an object-typed property with a `properties` map and
`additionalProperties` absent or `false` is flattened: `parse_field`
succeeds, and (for leaf sub-properties, as in the cited regression) emits
exactly one field per nested property, named the parent's dotted path plus
the nested name, with `is_nested` set and `parent_path` equal to the
parent's path, each with its own requiredness from the nested `required`
list; and no field is emitted whose name is the parent object's own
dotted path. -/
theorem c4_nested_object_flattened
    (fieldName : String) (s : Sprop) (isRequired : Bool) (parentPath : String)
    (ps : List (String × Sprop))
    (hname : fieldName.isEmpty = false)
    (hao : s.anyOf = none) (hen : s.enum_ = none) (hco : s.const_ = none)
    (hty : s.type_ = some (.str "object"))
    (hpr : s.properties = some ps)
    (hap : s.additionalProperties = none ∨ s.additionalProperties = some (.bool false))
    (hleaf : ∀ p ∈ ps, isLeafProp p.2 = true) :
    ∃ fs, parseField fieldName s isRequired parentPath = .ok fs ∧
      List.Forall₂ (fun (p : String × Sprop) (f : SchemaField) =>
        f.name = fullPathOf parentPath fieldName ++ "." ++ p.1 ∧
        f.is_nested = some true ∧
        f.parent_path = some (fullPathOf parentPath fieldName) ∧
        f.required = ((s.required.getD []).contains p.1 && p.2.default.isNone)) ps fs ∧
      ∀ f ∈ fs, f.name ≠ fullPathOf parentPath fieldName := by
  cases s with
  | mk t f2 ao e c it pr ap rq d md df mn mx emn emx mnl mxl mni mxi pat =>
    simp only [Sprop.anyOf, Sprop.enum_, Sprop.const_, Sprop.type_, Sprop.properties,
      Sprop.additionalProperties] at hao hen hco hty hpr hap
    subst hao hen hco hty hpr
    have hdft : determineFieldType
        (Sprop.mk (some (.str "object")) f2 none none none it (some ps) ap rq d md df mn mx emn
          emx mnl mxl mni mxi pat) = .ok (ftiPlain "unknown") := by
      rcases hap with hap | hap <;> subst hap <;>
        simp [determineFieldType, handleObjectType, ftiPlain]
    have hfull : (fullPathOf parentPath fieldName).isEmpty = false := by
      unfold fullPathOf
      cases hppe : parentPath.isEmpty with
      | true => simpa [hppe] using hname
      | false =>
        simp only [hppe, Bool.false_eq_true, if_false]
        cases hsA : (parentPath ++ "." ++ fieldName).isEmpty with
        | false => rfl
        | true =>
          exfalso
          have hlen := congrArg String.length ((String.isEmpty_iff _).mp hsA)
          rw [String.length_append, String.length_append] at hlen
          rw [show (".").length = 1 from rfl] at hlen
          rw [show ("" : String).length = 0 from rfl] at hlen
          omega
    obtain ⟨fs, hfs, hfa, hmem⟩ :=
      parseFieldList_leaves ps (rq.getD []) (fullPathOf parentPath fieldName) hfull hleaf
    refine ⟨fs, ?_, hfa, ?_⟩
    · simp only [parseField, hdft]
      rw [if_pos (by trivial)]
      show parseFieldList ps (rq.getD []) (fullPathOf parentPath fieldName) = .ok fs
      exact hfs
    · intro f hf
      obtain ⟨p, _, hpn⟩ := hmem f hf
      rw [hpn]
      exact append_dot_ne _ _

/-- The `category` sub-property of the C4 witness: a plain string. -/
def c4CatProp : Sprop :=
  .mk (some (.str "string")) none none none none none none none none none none none
    none none none none none none none none none

/-- The `priority` sub-property of the C4 witness: a plain number. -/
def c4PriProp : Sprop :=
  .mk (some (.str "number")) none none none none none none none none none none none
    none none none none none none none none none

/-- The `metadata` object of the C4 witness: two sub-properties,
`required: ["category"]`, `additionalProperties: false`. -/
def c4MetaProp : Sprop :=
  .mk (some (.str "object")) none none none none none
    (some [("category", c4CatProp), ("priority", c4PriProp)])
    (some (.bool false)) (some ["category"]) none none none
    none none none none none none none none none

/-- Witness for C4 at the cited regression input: flattening `metadata`
with sub-properties `category` and `priority` yields `metadata.category`
(required) and `metadata.priority` (optional) and no field named
`metadata`. -/
theorem c4_witness :
    ∃ fs, parseField "metadata" c4MetaProp true "" = .ok fs ∧
      List.Forall₂ (fun (p : String × Sprop) (f : SchemaField) =>
        f.name = fullPathOf "" "metadata" ++ "." ++ p.1 ∧
        f.is_nested = some true ∧
        f.parent_path = some (fullPathOf "" "metadata") ∧
        f.required = ((c4MetaProp.required.getD []).contains p.1 && p.2.default.isNone))
        [("category", c4CatProp), ("priority", c4PriProp)] fs ∧
      ∀ f ∈ fs, f.name ≠ fullPathOf "" "metadata" :=
  c4_nested_object_flattened "metadata" c4MetaProp true ""
    [("category", c4CatProp), ("priority", c4PriProp)]
    (by decide) rfl rfl rfl rfl rfl (Or.inr rfl) (by decide)

/-- When the type classification fails, `parse_field` propagates the
error. -/
theorem parseField_dft_error (n : String) (q : Sprop) (r : Bool) (pp : String) (e : String)
    (h : determineFieldType q = .error e) : parseField n q r pp = .error e := by
  cases q with
  | mk t fo ao en co itm pr ap rq de md df mn mx emn emx mnl mxl mni mxi pat =>
    unfold parseField
    rw [h]

/-- Throughout `parse_field` (including recursive flattening), a field
marked required never carries a default value. -/
theorem parseField_required_default :
    ∀ (n : String) (s : Sprop) (r : Bool) (pp : String) (fs : List SchemaField),
      parseField n s r pp = .ok fs → ∀ f ∈ fs, f.required = true → f.default = none := by
  intro n s r pp
  refine parseField.induct
    (fun n s r pp => ∀ fs, parseField n s r pp = .ok fs →
      ∀ f ∈ fs, f.required = true → f.default = none)
    (fun ps req fp => ∀ fs, parseFieldList ps req fp = .ok fs →
      ∀ f ∈ fs, f.required = true → f.default = none)
    ?_ ?_ ?_ ?_ ?_ ?_ ?_ ?_ n s r pp
  · intro fieldName isRequired parentPath t fo ao en co itm pr ap rq de md df mn mx emn emx
      mnl mxl mni mxi pat e hdft fs hok
    rw [parseField_dft_error _ _ _ _ _ hdft] at hok
    exact Except.noConfusion hok
  · intro fieldName isRequired parentPath t fo ao en co itm ap rq de md df mn mx emn emx
      mnl mxl mni mxi pat fullPath fti props hcond hdft ih fs hok
    simp only [parseField, hdft] at hok
    rw [if_pos hcond] at hok
    exact ih fs hok
  · intro fieldName isRequired parentPath t fo ao en co itm ap rq de md df mn mx emn emx
      mnl mxl mni mxi pat fti props hncond hdft fs hok
    simp only [parseField, hdft] at hok
    rw [if_neg hncond] at hok
    have hfs : _ = fs := Except.ok.inj hok
    subst hfs
    intro f hf hr
    simp only [List.mem_singleton] at hf
    subst hf
    simp only at hr
    simp only [Bool.and_eq_true] at hr
    simpa [Option.isNone_iff_eq_none] using hr.2
  · intro fieldName isRequired parentPath t fo ao en co itm ap rq de md df mn mx emn emx
      mnl mxl mni mxi pat fti hdft fs hok
    simp only [parseField, hdft] at hok
    have hfs : _ = fs := Except.ok.inj hok
    subst hfs
    intro f hf hr
    simp only [List.mem_singleton] at hf
    subst hf
    simp only at hr
    simp only [Bool.and_eq_true] at hr
    simpa [Option.isNone_iff_eq_none] using hr.2
  · intro nestedRequired fullPath fs hok
    have hfs : _ = fs := Except.ok.inj hok
    subst hfs
    intro f hf
    simp at hf
  · intro nestedRequired fullPath nestedName nestedSchema rest e hperr ih fs hok
    simp only [parseFieldList, hperr] at hok
    exact Except.noConfusion hok
  · intro nestedRequired fullPath nestedName nestedSchema rest more1 hpf e hplerr ih1 ih2 fs hok
    simp only [parseFieldList, hpf, hplerr] at hok
    exact Except.noConfusion hok
  · intro nestedRequired fullPath nestedName nestedSchema rest more1 hpf more2 hpl ih1 ih2 fs hok
    simp only [parseFieldList, hpf, hpl] at hok
    have hfs : _ = fs := Except.ok.inj hok
    subst hfs
    intro f hf hr
    rcases List.mem_append.mp hf with hm | hm
    · exact ih1 more1 hpf f hm hr
    · exact ih2 more2 hpl f hm hr

/-- Through the property loop of `parse_entry_schema`, a field marked
required never carries a default value. -/
theorem pesLoop_required_default (props : List (String × Sprop)) (reqSet : List String) :
    ∀ fs, pesLoop props reqSet = .ok fs → ∀ f ∈ fs, f.required = true → f.default = none := by
  induction props with
  | nil =>
    intro fs hok
    have hfs : _ = fs := Except.ok.inj hok
    subst hfs
    intro f hf
    simp at hf
  | cons hd rest ih =>
    obtain ⟨fn, fsch⟩ := hd
    intro fs hok
    by_cases hsch : fn = "$schema"
    · simp only [pesLoop, if_pos hsch] at hok
      exact ih fs hok
    · cases hpf : parseField fn fsch (reqSet.contains fn) "" with
      | error e =>
        simp only [pesLoop, if_neg hsch, hpf] at hok
        exact Except.noConfusion hok
      | ok parsed =>
        cases hpl : pesLoop rest reqSet with
        | error e =>
          simp only [pesLoop, if_neg hsch, hpf, hpl] at hok
          exact Except.noConfusion hok
        | ok more =>
          simp only [pesLoop, if_neg hsch, hpf, hpl] at hok
          have hfs : _ = fs := Except.ok.inj hok
          subst hfs
          intro f hf hr
          rcases List.mem_append.mp hf with hm | hm
          · exact parseField_required_default fn fsch _ "" parsed hpf f hm hr
          · exact ih more hpl f hm hr

/-- Through `parse_entry_schema`, a field marked required never carries a
default value. -/
theorem parseEntrySchema_required_default (cn : String) (es : SDef) (sd : SchemaDefinition)
    (h : parseEntrySchema cn es = .ok sd) :
    ∀ f ∈ sd.fields, f.required = true → f.default = none := by
  unfold parseEntrySchema at h
  cases hpr : es.properties with
  | none =>
    simp only [hpr] at h
    exact Except.noConfusion h
  | some props =>
    simp only [hpr] at h
    cases hpl : pesLoop props (es.required.getD []) with
    | error e =>
      simp only [hpl] at h
      exact Except.noConfusion h
    | ok fields =>
      simp only [hpl] at h
      have hsd : _ = sd := Except.ok.inj h
      subst hsd
      intro f hf
      exact pesLoop_required_default props _ fields hpl f hf

/-- C9: a produced `SchemaField` has `required = true` only if the
property's name is listed in the enclosing schema's `required` array and
the property has no default value; a property with a default is never
marked required, even when listed.  The first conjunct covers the whole
entry parse (including flattened nested fields, whose requiredness comes
from their enclosing object's own `required` list); the second gives the
exact gating on a leaf property whose requiredness flag is membership in
the enclosing `required` list, as `parse_entry_schema` and the flatten
loop both pass it. -/
theorem c9_required_gating (requiredList : List String) (fieldName : String) (s : Sprop)
    (parentPath : String) :
    (∀ (cn : String) (es : SDef) (sd : SchemaDefinition), parseEntrySchema cn es = .ok sd →
      ∀ f ∈ sd.fields, f.required = true → f.default = none) ∧
    (isLeafProp s = true →
      ∃ f, parseField fieldName s (requiredList.contains fieldName) parentPath = .ok [f] ∧
        (f.required = true ↔ (requiredList.contains fieldName = true ∧ s.default = none))) := by
  constructor
  · exact fun cn es sd h => parseEntrySchema_required_default cn es sd h
  · intro hleaf
    obtain ⟨f, hpf, _, _, _, hreq, _⟩ :=
      parseField_leaf fieldName s (requiredList.contains fieldName) parentPath hleaf
    refine ⟨f, hpf, ?_⟩
    rw [hreq]
    simp [Bool.and_eq_true, Option.isNone_iff_eq_none]

/-- The `title` property of the C9 witness: a plain required string. -/
def c9TitleProp : Sprop :=
  .mk (some (.str "string")) none none none none none none none none none none none
    none none none none none none none none none

/-- The `draft` property of the C9 witness: a boolean with
`"default": false`. -/
def c9DraftProp : Sprop :=
  .mk (some (.str "boolean")) none none none none none none none none none none
    (some (.bool false)) none none none none none none none none none

/-- The entry schema of the C9 witness: both properties listed in
`required`. -/
def c9EntryDef : SDef :=
  .mk "object" (some [("title", c9TitleProp), ("draft", c9DraftProp)])
    (some ["title", "draft"]) none

/-- The field produced for `title` in the C9 witness. -/
def c9TitleField : SchemaField :=
  { name := "title", label := "Title", field_type := "string", sub_type := none,
    required := true, constraints := none, description := none, default := none,
    enum_values := none, reference_collection := none, array_reference_collection := none,
    is_nested := none, parent_path := none }

/-- The field produced for `draft` in the C9 witness: listed in
`required` but carrying a default, hence not required. -/
def c9DraftField : SchemaField :=
  { name := "draft", label := "Draft", field_type := "boolean", sub_type := none,
    required := false, constraints := none, description := none,
    default := some (.bool false), enum_values := none, reference_collection := none,
    array_reference_collection := none, is_nested := none, parent_path := none }

/-- Witness for C9 at concrete inputs: the required `title` field indeed
has no default, and the `draft` field's requiredness is gated by both
membership in `required` and the absence of a default. -/
theorem c9_witness :
    c9TitleField.default = none ∧
    (∃ f, parseField "draft" c9DraftProp (["draft"].contains "draft") "" = .ok [f] ∧
      (f.required = true ↔
        (["draft"].contains "draft" = true ∧ c9DraftProp.default = none))) :=
  ⟨(c9_required_gating ["draft"] "draft" c9DraftProp "").1 "b" c9EntryDef
     { collection_name := "b", fields := [c9TitleField, c9DraftField] } (by rfl)
     c9TitleField (List.Mem.head _) (by rfl),
   (c9_required_gating ["draft"] "draft" c9DraftProp "").2 (by decide)⟩
